import Mathlib

/-!
Verification of the electricity-pipeline repository.

Shallow embedding of the core modules (`api_client.py`, `data_processing.py`,
`caching.py`, `retrieval.py`, `publisher.py`, `subscriber.py`).

Modelling conventions, used throughout:
* Naive `datetime` instants form a linear timeline; `datetime + timedelta`
  is exact integer arithmetic on that timeline, so instants are modelled as
  `Int` (minutes since an arbitrary epoch) and `timedelta(days = d)` as
  `d * 1440`.  `datetime.date()` truncates the time of day, i.e. floor
  division of the instant by the length of one day.
* Python exceptions are modelled by the `PyExc` type; a function that can
  raise returns `Except PyExc _`.
* Python dicts are association lists with distinct keys; `k in d` is
  `List.lookup` success, `d.get(k)` is `List.lookup`.
* Remote HTTP calls are modelled by a response oracle passed as an explicit
  argument: the oracle maps each request the code issues to either a payload
  or an HTTP error status (or a non-HTTP failure).
-/

namespace ElecPipeline

/-- Python exceptions relevant to the embedded code. -/
inductive PyExc where
  | http (status : Nat)
  | keyError
  | valueError
  | typeError
  | attributeError
  | otherError
  deriving DecidableEq, Repr

/-- Minutes in one day: `timedelta(days = 1)` on the minute-granularity timeline. -/
def minutesPerDay : Int := 1440

/-! ### Character-level string utilities

Executable models of the Python string operations the code uses
(`startswith`, `replace`, substring membership, `str(int)`).  They operate on
`String.data` so that concrete instances evaluate inside the kernel. -/

/-- `pre` is a leading segment of `s` (model of `str.startswith`). -/
def charsStartWith : List Char → List Char → Bool
  | [], _ => true
  | _ :: _, [] => false
  | p :: ps, c :: cs => p = c && charsStartWith ps cs

/-- Replace each non-overlapping left-to-right occurrence of `pat` by `rep`
(model of `str.replace`; the code only ever uses nonempty patterns).  The
`fuel` argument makes the recursion structural; each step consumes at least
one character, so `fuel = s.length` (supplied by `charsReplace`) is always
sufficient. -/
def charsReplaceAux (pat rep : List Char) : Nat → List Char → List Char
  | 0, s => s
  | fuel + 1, s =>
    match s with
    | [] => []
    | c :: cs =>
      if pat ≠ [] ∧ charsStartWith pat (c :: cs) then
        rep ++ charsReplaceAux pat rep fuel ((c :: cs).drop pat.length)
      else
        c :: charsReplaceAux pat rep fuel cs

def charsReplace (pat rep s : List Char) : List Char :=
  charsReplaceAux pat rep s.length s

/-- `pat` occurs as a contiguous substring of `s` (model of Python `in` on strings). -/
def charsHasSub (pat : List Char) : List Char → Bool
  | [] => pat.isEmpty
  | c :: cs => charsStartWith pat (c :: cs) || charsHasSub pat cs

def strStartsWith (s pre : String) : Bool := charsStartWith pre.data s.data

def strReplace (s pat rep : String) : String := ⟨charsReplace pat.data rep.data s.data⟩

/-- Numeric value of a decimal digit character. -/
def charVal (c : Char) : Nat := c.toNat - 48

def isDigitChar (c : Char) : Bool := 48 ≤ c.toNat && c.toNat ≤ 57

/-- Little-endian digit characters of `n` (with explicit fuel so that the
definition is structurally recursive; `natStr` supplies `fuel = n`, which is
always sufficient). -/
def natStrAux : Nat → Nat → List Char
  | 0, _ => []
  | fuel + 1, n => if n = 0 then [] else Nat.digitChar (n % 10) :: natStrAux fuel (n / 10)

/-- Decimal representation of a natural number (model of Python `str(int)` for `int ≥ 0`). -/
def natStr (n : Nat) : String := if n = 0 then "0" else ⟨(natStrAux n n).reverse⟩

/-- Decimal representation of an integer (model of Python `str(int)`). -/
def intStr (n : Int) : String := (if n < 0 then "-" else "") ++ natStr n.natAbs

/-- Value of a little-endian decimal digit list. -/
def digitsVal : List Nat → Nat
  | [] => 0
  | d :: ds => d + 10 * digitsVal ds

/-- Parse a nonempty all-digit character list (most significant first) as a
natural number. -/
def parseNatChars (cs : List Char) : Option Nat :=
  if cs ≠ [] ∧ cs.all isDigitChar then some (digitsVal ((cs.map charVal).reverse)) else none

/-- Parse an optionally `-`-signed digit string as an integer. -/
def parseIntChars (cs : List Char) : Option Int :=
  match cs with
  | '-' :: rest =>
    match parseNatChars rest with
    | some n => some (-(n : Int))
    | none => none
  | _ =>
    match parseNatChars cs with
    | some n => some ((n : Int))
    | none => none

/-! ## `api_client.py` — interval conversion and windowing -/

/-- Interval-string conversion performed at the top of
`fetch_facility_metrics`, `fetch_facilities_metrics` and `fetch_network_data`:
ISO-8601 durations `PT5M`/`PT1H`/`PT1D` map to `5m`/`1h`/`1d`, other `PT…`
strings are rewritten by character replacement, anything else passes through. -/
def convertInterval (interval : String) : String :=
  if strStartsWith interval "PT" then
    if interval = "PT5M" then "5m"
    else if interval = "PT1H" then "1h"
    else if interval = "PT1D" then "1d"
    else strReplace (strReplace (strReplace (strReplace interval "PT" "") "M" "m") "H" "h") "D" "d"
  else interval

/-- `max_days_per_request`: the dict lookup `{"5m": 7, "1h": 30, "1d": 365}.get(p, 365)`. -/
def maxDaysPerRequest (intervalParam : String) : Nat :=
  if intervalParam = "5m" then 7
  else if intervalParam = "1h" then 30
  else if intervalParam = "1d" then 365
  else 365

/-- The `while current < end` splitting loop shared by `fetch_facility_metrics`,
`fetch_facilities_metrics`, `fetch_network_data` and `iter_time_windows`:
emit `[current, min(current + window, end))` and advance to that minimum.
The source only runs it with positive windows (7, 30 or 365 days); the guard
`0 < window` makes termination evident and is vacuous at every call site. -/
def iter_time_windows (window endT : Int) (current : Int) : List (Int × Int) :=
  if _h : current < endT ∧ 0 < window then
    (current, min (current + window) endT) ::
      iter_time_windows window endT (min (current + window) endT)
  else []
  termination_by (endT - current).toNat
  decreasing_by
    simp only [Int.min_def]
    split <;> omega

/-- Window list computed by `fetch_facility_metrics` (and, identically, the
`date_windows` list of `fetch_facilities_metrics`): split `[start, end)` into
sub-windows of at most the interval's maximum range when the requested range
exceeds it, otherwise issue the single window `[start, end)`. -/
def facilityMetricsWindows (start endT : Int) (interval : String) : List (Int × Int) :=
  if endT - start > (maxDaysPerRequest (convertInterval interval) : Int) * minutesPerDay then
    iter_time_windows ((maxDaysPerRequest (convertInterval interval) : Int) * minutesPerDay)
      endT start
  else [(start, endT)]

/-- `[s, e)`-windows chained without gap or overlap: each window starts where
the previous one ended, is nonempty, no longer than `maxR`, and the chain runs
from `s` to `e`. -/
def chainCover (maxR : Int) : Int → Int → List (Int × Int) → Prop
  | s, e, [] => s = e
  | s, e, w :: ws => w.1 = s ∧ s < w.2 ∧ w.2 - s ≤ maxR ∧ chainCover maxR w.2 e ws


/-! ## Raw record values

`PyVal` models the values appearing in raw API record fields: strings,
numbers (Python ints/floats as exact rationals), `None`, and `datetime`
objects.  `RawRecord` models a Python dict (association list, distinct keys,
insertion order). -/

inductive PyVal where
  | vstr (s : String)
  | vnum (q : ℚ)
  | vnone
  | vdt (t : Int)
  deriving DecidableEq

abbrev RawRecord := List (String × PyVal)

/-- `field in record` / `record[field]`: first binding of the key. -/
def lookupField (r : RawRecord) (k : String) : Option PyVal :=
  (r.find? (fun kv => kv.1 = k)).map (fun kv => kv.2)

/-! ## `api_client.py` — per-facility metric fetching (`_fetch_facility_metrics_single`)

The outcome of one fully-paginated metric request is modelled by the response
oracle `resp : String → FetchResult`: `ok recs` when every page succeeded
(`recs` the accumulated `data` items), `httpError s` when some page failed
with HTTP status `s` (the partially accumulated items are discarded, exactly
as in the source, which only yields after pagination completes), `otherExc`
for any non-HTTP failure. -/

inductive FetchResult where
  | ok (recs : List RawRecord)
  | httpError (status : Nat)
  | otherExc
  deriving DecidableEq

/-- A record yielded by the client: the raw item with `facility_id` and
`metric` keys set (`record["facility_id"] = facility_code` etc.). -/
def tagRecord (facilityCode metric : String) (r : RawRecord) : RawRecord :=
  r ++ [("facility_id", PyVal.vstr facilityCode), ("metric", PyVal.vstr metric)]

/-- The inner `try` block of `_fetch_facility_metrics_single` for one metric:
request + pagination, yielding tagged records; a 404 is logged and skipped
(`continue`, contributing nothing), any other `requests.HTTPError` is
re-raised. -/
def innerMetricFetch (resp : String → FetchResult) (facilityCode metric : String) :
    Except PyExc (List RawRecord) :=
  match resp metric with
  | .ok recs => .ok (recs.map (tagRecord facilityCode metric))
  | .httpError s => if s = 404 then .ok [] else .error (.http s)
  | .otherExc => .error .otherError

/-- `_fetch_facility_metrics_single`: iterate over the metrics; the outer
`except Exception` catches *every* failure of the inner block (including the
`HTTPError` re-raised for non-404 statuses), logs a warning and continues
with the next metric.  The generator therefore never raises: the `Except`
layer records that no exception escapes. -/
def fetch_facility_metrics_single (resp : String → FetchResult) (facilityCode : String) :
    List String → Except PyExc (List RawRecord)
  | [] => .ok []
  | metric :: rest =>
    match innerMetricFetch resp facilityCode metric with
    | .ok recs =>
      match fetch_facility_metrics_single resp facilityCode rest with
      | .ok tail => .ok (recs ++ tail)
      | .error e => .error e
    | .error _ =>
      fetch_facility_metrics_single resp facilityCode rest

/-! ## `api_client.py` — bulk fetching (`fetch_facilities_metrics`)

One request of the bulk endpoint is identified by (metric, date window,
facility batch); the nested payload traversal that flattens `data[].results[]`
into records is abstracted into the oracle's `ok` payload, which carries the
already-extracted record list for that request. -/

/-- A single bulk request: metric, `[date_start, date_end)` window, batch of
facility codes. -/
abbrev BulkReq := String × (Int × Int) × List String

/-- `facility_codes[i:i+batch_size]` chunking with `batch_size = 5`
(`range(0, len(codes), 5)`).  Structural via fuel: each step drops 5 > 0
codes, so `fuel = codes.length` (supplied by `facilityBatches`) suffices. -/
def facilityBatchesAux : Nat → List String → List (List String)
  | 0, codes => if codes.isEmpty then [] else [codes.take 5]
  | fuel + 1, codes =>
    if codes.isEmpty then []
    else (codes.take 5) :: facilityBatchesAux fuel (codes.drop 5)

def facilityBatches (codes : List String) : List (List String) :=
  facilityBatchesAux codes.length codes

/-- The request plan of `fetch_facilities_metrics`: for each facility-level
metric, each date window, each batch of 5 facility codes, in that nesting
order. -/
def bulkRequests (facilityMetrics : List String) (windows : List (Int × Int))
    (codes : List String) : List BulkReq :=
  facilityMetrics.flatMap (fun m =>
    windows.flatMap (fun w =>
      (facilityBatches codes).map (fun b => (m, w, b))))

/-- The per-request `try/except requests.HTTPError` of
`fetch_facilities_metrics` (api_client.py lines 331-400), applied to each
planned request in order: 404 and 416 are expected ("no data") and skipped,
500 is logged and the batch skipped, any other HTTP status is re-raised after
logging; non-HTTP exceptions are not caught. -/
def processBulkRequests (resp : BulkReq → FetchResult) :
    List BulkReq → Except PyExc (List RawRecord)
  | [] => .ok []
  | req :: rest =>
    match resp req with
    | .ok recs =>
      match processBulkRequests resp rest with
      | .ok tail => .ok (recs ++ tail)
      | .error e => .error e
    | .httpError s =>
      if s = 404 ∨ s = 416 then processBulkRequests resp rest
      else if s = 500 then processBulkRequests resp rest
      else .error (.http s)
    | .otherExc => .error .otherError

/-- `fetch_facilities_metrics`: filter out the network-level metrics
(`price`, `demand`), return immediately when nothing remains, otherwise build
the date windows and process every (metric, window, batch) request in order. -/
def fetch_facilities_metrics (resp : BulkReq → FetchResult) (codes : List String)
    (metrics : List String) (start endT : Int) (interval : String) :
    Except PyExc (List RawRecord) :=
  let facilityMetrics := metrics.filter (fun m => ¬(m = "price" ∨ m = "demand"))
  if facilityMetrics.isEmpty then .ok []
  else
    processBulkRequests resp
      (bulkRequests facilityMetrics (facilityMetricsWindows start endT interval) codes)

/-! ## `data_processing.py` — record normalisation

`datetime.fromisoformat` is modelled at value level: a parseable ISO-8601
instant string is represented by the (signed) decimal numeral of its instant,
optionally carrying the UTC suffix `+00:00` (which the source introduces by
replacing a trailing `Z`); every other string fails to parse, exactly as
non-ISO strings raise `ValueError` in the source.  `str()` of a non-string,
non-datetime value never has ISO form, so `pyStrOf` maps those values to
non-parsing placeholder strings. -/

def TIMESTAMP_FIELDS : List String := ["timestamp", "settlement_date", "interval_start"]

def VALUE_FIELDS : List String := ["value", "power", "emissions", "emission", "co2"]

/-- The `for field in FIELDS: if field in record:` scan — the value of the
first present candidate field, if any. -/
def firstPresentField (r : RawRecord) : List String → Option PyVal
  | [] => none
  | f :: fs =>
    match lookupField r f with
    | some v => some v
    | none => firstPresentField r fs

/-- `str(raw_value)` as applied to timestamp field values. -/
def pyStrOf : PyVal → String
  | .vstr s => s
  | .vnum _ => "<float repr>"
  | .vnone => "None"
  | .vdt _ => "<datetime repr>"

/-- `datetime.fromisoformat` (value-level model, see section comment): an
optionally signed decimal numeral, optionally followed by `+00:00`. -/
def parseIso (s : String) : Option Int :=
  if charsStartWith "00:00+".data s.data.reverse then
    parseIntChars (s.data.take (s.data.length - 6))
  else
    parseIntChars s.data

/-- `_extract_timestamp`: first present timestamp field; `datetime` values
are returned as-is, anything else is stringified, `Z` is replaced by
`+00:00`, and the result must parse as ISO (else `ValueError`); no present
field at all is a `KeyError`. -/
def extract_timestamp (r : RawRecord) : Except PyExc Int :=
  match firstPresentField r TIMESTAMP_FIELDS with
  | some (.vdt t) => .ok t
  | some v =>
    match parseIso (strReplace (pyStrOf v) "Z" "+00:00") with
    | some t => .ok t
    | none => .error .valueError
  | none => .error .keyError

/-- Parse an unsigned decimal numeral `digits` or `digits.digits` as
(mantissa, number of fraction digits). -/
def parseUnsignedDec (cs : List Char) : Option (Nat × Nat) :=
  match cs.dropWhile (fun c => c != '.') with
  | [] => (parseNatChars cs).map (fun n => (n, 0))
  | _ :: frac =>
    match parseNatChars (cs.takeWhile (fun c => c != '.')), parseNatChars frac with
    | some a, some b => some (a * 10 ^ frac.length + b, frac.length)
    | _, _ => none

/-- Parse an optionally `-`-signed decimal numeral as (signed mantissa,
number of fraction digits). -/
def parseDecChars (cs : List Char) : Option (Int × Nat) :=
  match cs with
  | '-' :: rest => (parseUnsignedDec rest).map (fun p => (-(p.1 : Int), p.2))
  | _ => (parseUnsignedDec cs).map (fun p => ((p.1 : Int), p.2))

/-- `float(x)`: numbers coerce to themselves, numeral strings to their value,
everything else (`None`, datetimes, non-numeral strings) raises
`TypeError`/`ValueError` — modelled as `none`. -/
def coerceFloatQ : PyVal → Option ℚ
  | .vnum q => some q
  | .vstr s => (parseDecChars s.data).map (fun p => (p.1 : ℚ) / 10 ^ p.2)
  | .vnone => none
  | .vdt _ => none

/-- `_extract_value`: first present value field; a coercion failure is caught
(`TypeError`/`ValueError`) and becomes NaN — modelled as the `none` payload —
while a record with no value field at all raises `KeyError`. -/
def extract_value (r : RawRecord) : Except PyExc (Option ℚ) :=
  match firstPresentField r VALUE_FIELDS with
  | some v => .ok (coerceFloatQ v)
  | none => .error .keyError

/-- One normalised row: `value = none` models NaN; the `Option PyVal` fields
are `none` when the corresponding key was absent from the raw record. -/
structure NRow where
  metric : Option PyVal
  timestamp : Int
  value : Option ℚ
  facilityId : Option PyVal
  region : Option PyVal
  networkRegion : Option PyVal
  deriving DecidableEq

/-- The loop body of `normalise_timeseries_records` for one record: `ok none`
means the record was skipped with a logged warning (`KeyError` from either
extractor), an `error` is an uncaught exception (`ValueError` from timestamp
parsing), `ok (some row)` is the normalised dict appended to `rows`. -/
def normaliseRow (r : RawRecord) : Except PyExc (Option NRow) :=
  match extract_timestamp r with
  | .error .keyError => .ok none
  | .error e => .error e
  | .ok t =>
    match extract_value r with
    | .error .keyError => .ok none
    | .error e => .error e
    | .ok v =>
      .ok (some
        { metric := lookupField r "metric"
          timestamp := t
          value := v
          facilityId := lookupField r "facility_id"
          region := lookupField r "region"
          networkRegion := lookupField r "network_region" })

/-- The record loop of `normalise_timeseries_records`. -/
def collectRows : List RawRecord → Except PyExc (List NRow)
  | [] => .ok []
  | r :: rs =>
    match normaliseRow r with
    | .error e => .error e
    | .ok none => collectRows rs
    | .ok (some row) => (collectRows rs).map (fun tail => row :: tail)

/-- A pandas cell holding `None` or absent is NA (dropped by `dropna`). -/
def isNaLike : Option PyVal → Bool
  | none => true
  | some .vnone => true
  | some _ => false

/-- `normalise_timeseries_records`: collect rows (skipping malformed
records), then `dropna(subset=["metric", "timestamp"])` — the timestamp of a
collected row is never NA, so only NA metrics are dropped. -/
def normalise_timeseries_records (rs : List RawRecord) : Except PyExc (List NRow) :=
  (collectRows rs).map (fun rows => rows.filter (fun row => !(isNaLike row.metric)))

/-! ## `data_processing.py` — pivoting (`pivot_metrics`) -/

/-- Which column heads the pivot index (the `if/elif` chain on
`df.columns`). -/
inductive EntCol where
  | facilityId
  | region
  | networkRegion
  deriving DecidableEq

def entValue : EntCol → NRow → Option PyVal
  | .facilityId, r => r.facilityId
  | .region, r => r.region
  | .networkRegion, r => r.networkRegion

/-- A dataframe column exists iff some record carried the key. -/
def chooseEntCol (rows : List NRow) : Option EntCol :=
  if rows.any (fun r => r.facilityId.isSome) then some .facilityId
  else if rows.any (fun r => r.region.isSome) then some .region
  else if rows.any (fun r => r.networkRegion.isSome) then some .networkRegion
  else none

/-- `pivot_table` group eligibility: rows whose index levels or column level
are NA are dropped by the underlying groupby. -/
def rowEligible (ec : Option EntCol) (r : NRow) : Bool :=
  (match ec with
   | none => true
   | some c =>
     match entValue c r with
     | some v => ¬(v = PyVal.vnone)
     | none => false) &&
  ¬ isNaLike r.metric

/-- The group key of an eligible row: entity value (when an entity column
heads the index) and timestamp. -/
def rowKey (ec : Option EntCol) (r : NRow) : Option PyVal × Int :=
  ((match ec with
    | none => none
    | some c => entValue c r), r.timestamp)

/-- Mean aggregation over the non-NaN values of a group (`aggfunc="mean"`);
a group with no non-NaN value yields a NaN cell. -/
def meanQ (qs : List ℚ) : Option ℚ :=
  if qs.isEmpty then none else some (qs.sum / (qs.length : ℚ))

/-- One pivoted row: index values plus one cell per metric column. -/
structure PRow where
  ent : Option PyVal
  ts : Int
  cells : List (PyVal × Option ℚ)
  deriving DecidableEq

/-- Ascending sort on a timestamp projection (`sort_values("timestamp")`;
pandas' default sort is not stable, so only order and multiset are
specified). -/
def sortOnTs {α : Type} (ts : α → Int) (l : List α) : List α :=
  List.insertionSort (fun a b => ts a ≤ ts b) l

/-- `pivot_metrics`: empty in, empty out; otherwise group the eligible rows
by (entity, timestamp), one column per distinct metric (excluding columns
whose values are all NaN, which `pivot_table(dropna=True)` drops), aggregate
duplicates by mean, and sort ascending by timestamp. -/
def pivot_metrics (rows : List NRow) : List PRow :=
  if rows.isEmpty then [] else
  let ec := chooseEntCol rows
  let elig := rows.filter (rowEligible ec)
  let cols := ((elig.filterMap (fun r => r.metric)).dedup).filter
    (fun m => elig.any (fun r => r.metric = some m ∧ r.value.isSome))
  let keys := (elig.map (rowKey ec)).dedup
  sortOnTs PRow.ts (keys.map (fun k =>
    { ent := k.1
      ts := k.2
      cells := cols.map (fun m =>
        (m, meanQ ((elig.filter
              (fun r => rowKey ec r = k ∧ r.metric = some m)).filterMap
            (fun r => r.value)))) }))

/-! ## `caching.py` — cache paths and the CSV codec

`str(date)` is modelled by the decimal numeral of the ordinal day: an
injective rendering of the calendar date, which is all `build_cache_path`
uses it for. -/

structure CacheCfg where
  directory : String
  consolidatedFilename : String

/-- `datetime.date()`: truncate the time of day (floor to whole days). -/
def dateOf (t : Int) : Int := Int.fdiv t minutesPerDay

/-- `build_cache_path`: `directory / f"{start.date()}_{end.date()}{('_' + suffix) if suffix else ''}_{filename}"`. -/
def build_cache_path (cc : CacheCfg) (start endT : Int) (suffix : String) : String :=
  cc.directory ++ "/" ++ intStr (dateOf start) ++ "_" ++ intStr (dateOf endT) ++
    (if suffix = "" then "" else "_" ++ suffix) ++ "_" ++ cc.consolidatedFilename

/-- A cell of a consolidated table as persisted by the cache:
`cnum m e` is the decimal number `m / 10 ^ e` (a float cell), `cnan` is NaN,
`cstr` a string cell, `cts` a timestamp cell. -/
inductive Cell where
  | cnum (m : Int) (e : Nat)
  | cnan
  | cstr (s : String)
  | cts (t : Int)
  deriving DecidableEq

/-- Decimal rendering of `m / 10 ^ e` as Python/pandas print a float: the
digits of `|m|` left-padded with zeros to at least `e + 1` digits, with the
decimal point inserted `e` digits from the right. -/
def encodeDec (m : Int) (e : Nat) : String :=
  if e = 0 then intStr m
  else
    let ds := List.replicate (e + 1 - (natStr m.natAbs).data.length) '0' ++ (natStr m.natAbs).data
    (if m < 0 then "-" else "") ++ String.mk (ds.take (ds.length - e)) ++ "." ++
      String.mk (ds.drop (ds.length - e))

/-- `df.to_csv` field rendering: NaN becomes the empty field, strings are
written as-is, timestamps in ISO form (see the `parseIso` model), numbers in
decimal. -/
def encodeCell : Cell → String
  | .cnan => ""
  | .cstr s => s
  | .cts t => intStr t
  | .cnum m e => encodeDec m e

/-- `pd.read_csv(..., parse_dates=["timestamp"])` field parsing: fields of
the `timestamp` column are parsed as instants; elsewhere the empty field is
NaN, numeral fields become numbers (type inference), and anything else stays
a string. -/
def decodeField (isTs : Bool) (s : String) : Cell :=
  if isTs then
    match parseIntChars s.data with
    | some t => .cts t
    | none => .cstr s
  else if s = "" then .cnan
  else
    match parseIntChars s.data with
    | some n => .cnum n 0
    | none =>
      match parseDecChars s.data with
      | some p => .cnum p.1 p.2
      | none => .cstr s

/-- A consolidated table as written to / read from the cache. -/
structure CTable where
  cols : List String
  rows : List (List Cell)
  deriving DecidableEq

/-- `write_dataset_to_cache`: `df.to_csv(path, index=False)` — header plus
one encoded field per cell.  (The comma/quoting layer of the CSV format is an
injective transport of the field lists and is abstracted away.) -/
def write_dataset_to_cache (t : CTable) : List String × List (List String) :=
  (t.cols, t.rows.map (fun row => row.map encodeCell))

/-- `read_cached_dataset`: `pd.read_csv(path, parse_dates=["timestamp"])` —
decode each field, parsing the `timestamp` column as instants. -/
def read_cached_dataset (file : List String × List (List String)) : CTable :=
  ⟨file.1, file.2.map (fun line =>
    (file.1.zip line).map (fun p => decodeField (p.1 = "timestamp") p.2))⟩

/-! ## `retrieval.py` — the orchestrator

The orchestrator is embedded over the normaliser defined above; what the
remote client yields for the request is the explicit `records` argument, and
the post-normalisation consolidation chain (pivot, metadata merge,
interpolation, optional-metric filtering) — which the claims about the
orchestrator do not inspect — is the explicit total function `process`.
The cache file is modelled value-faithfully (the CSV codec is shown lossless
separately, on `write_dataset_to_cache`/`read_cached_dataset`). -/

/-- The cache directory: path ↦ stored table, last writer first. -/
abbrev FS := List (String × List NRow)

def fsLookup (fs : FS) (p : String) : Option (List NRow) :=
  (fs.find? (fun kv => kv.1 = p)).map (fun kv => kv.2)

def fsInsert (fs : FS) (p : String) (t : List NRow) : FS := (p, t) :: fs

/-- The two failures `retrieve_and_cache_dataset` can raise in this model:
an uncaught `ValueError` escaping normalisation, and the
`RuntimeError("No data retrieved from OpenElectricity API.")` for an empty
normalisation result. -/
inductive OrchError where
  | valueError
  | emptyResult
  deriving DecidableEq

structure OrchResult where
  result : Except OrchError (List NRow)
  fs : FS
  remoteFetchSequences : Nat

/-- `retrieve_and_cache_dataset`: compute the cache path (no suffix); on a
cache hit with caching enabled return the cached table with no remote calls;
otherwise run one remote fetch sequence, normalise, raise on an empty result
unless `allow_partial`, consolidate, write to the cache and return. -/
def retrieve_and_cache_dataset (cc : CacheCfg) (fs : FS) (start endT : Int)
    (useCache allowPartial : Bool) (records : List RawRecord)
    (process : List NRow → List NRow) : OrchResult :=
  match useCache, fsLookup fs (build_cache_path cc start endT "") with
  | true, some cached => ⟨.ok cached, fs, 0⟩
  | _, _ =>
    match normalise_timeseries_records records with
    | .error _ => ⟨.error .valueError, fs, 1⟩
    | .ok normalised =>
      if normalised.isEmpty then
        if allowPartial then ⟨.ok [], fs, 1⟩
        else ⟨.error .emptyResult, fs, 1⟩
      else
        ⟨.ok (process normalised), fsInsert fs (build_cache_path cc start endT "")
          (process normalised), 1⟩

/-! ## `publisher.py` — `publish_dataset` -/

/-- A row of the consolidated dataframe handed to the publisher; only the
timestamp and the numeric metric cells (`none` = NaN) matter to the
publication logic. -/
structure PubRow where
  ts : Int
  cells : List (String × Option ℚ)
  deriving DecidableEq

structure PubFrame where
  cols : List String
  rows : List PubRow

/-- `df[c].notna()` for one row. -/
def cellNotNa (r : PubRow) (c : String) : Bool :=
  match (r.cells.find? (fun kv => kv.1 = c)).map (fun kv => kv.2) with
  | some (some _) => true
  | _ => false

/-- `publish_dataset`, returning the rows emitted as messages, in emission
order: nothing on an empty frame or missing required columns; otherwise the
rows with both `power` and `emissions` non-null, sorted ascending by
timestamp, one message each (a failed `client.publish` is logged and does not
stop the loop, so it still consumes its row). -/
def publish_dataset (df : PubFrame) : List PubRow :=
  if df.rows.isEmpty then []
  else if (["power", "emissions"].filter (fun c => !(df.cols.contains c))).isEmpty then
    let combined := df.rows.filter (fun r => cellNotNa r "power" && cellNotNa r "emissions")
    if combined.isEmpty then []
    else sortOnTs PubRow.ts combined
  else []

/-! ## `subscriber.py` — `_parse_message` / `_on_message`

JSON values decoded by `json.loads` are modelled by `JVal`; the raw payload
string is represented by its decoding outcome (`none` = `JSONDecodeError`),
since the JSON grammar itself is library code.  Python's `in` and `[...]`
behave differently on each decoded shape and are modelled per constructor. -/

inductive JVal where
  | jnull
  | jbool (b : Bool)
  | jnum (q : ℚ)
  | jstr (s : String)
  | jarr (elems : List JVal)
  | jobj (fields : List (String × JVal))

/-- A value of a parsed message: an original JSON value or the `datetime`
written into the `timestamp` slot. -/
inductive MVal where
  | j (v : JVal)
  | dt (t : Int)

abbrev Msg := List (String × MVal)

def jlookup (fields : List (String × JVal)) (k : String) : Option JVal :=
  (fields.find? (fun kv => kv.1 = k)).map (fun kv => kv.2)

/-- `message["timestamp"] = parsed_datetime` on a dict containing the key. -/
def setTimestamp (fields : List (String × JVal)) (t : Int) : Msg :=
  fields.map (fun kv => (kv.1, if kv.1 = "timestamp" then MVal.dt t else MVal.j kv.2))

/-- What `_parse_message` returns on success: the (possibly
timestamp-rewritten) dict, or the decoded non-dict value unchanged. -/
inductive PMsg where
  | obj (fields : Msg)
  | other (v : JVal)

def isTsStr : JVal → Bool
  | .jstr s => s = "timestamp"
  | _ => false

/-- `_parse_message`: `ok none` = message discarded with a warning (bad JSON,
or present-but-unparsable string timestamp); `error` = an exception escaping
to the caller (`"timestamp" in message` raises `TypeError` on numbers, bools
and `None`; `message["timestamp"]` raises `TypeError` on strings and lists
containing `"timestamp"`; `.replace` raises `AttributeError` on a non-string
timestamp value). -/
def parse_message (decoded : Option JVal) : Except PyExc (Option PMsg) :=
  match decoded with
  | none => .ok none
  | some (.jobj fields) =>
    match jlookup fields "timestamp" with
    | none => .ok (some (.obj (fields.map (fun kv => (kv.1, MVal.j kv.2)))))
    | some (.jstr s) =>
      match parseIso (strReplace s "Z" "+00:00") with
      | some t => .ok (some (.obj (setTimestamp fields t)))
      | none => .ok none
    | some _ => .error .attributeError
  | some (.jstr s) =>
    if charsHasSub "timestamp".data s.data then .error .typeError
    else .ok (some (.other (.jstr s)))
  | some (.jarr elems) =>
    if elems.any isTsStr then .error .typeError
    else .ok (some (.other (.jarr elems)))
  | some (.jnum _) => .error .typeError
  | some (.jbool _) => .error .typeError
  | some .jnull => .error .typeError

/-- `MqttSubscriber._on_message` with the default handler
(`MessageStore.append`): parse, drop discarded messages, append the rest; an
exception from `_parse_message` escapes to the bus callback. -/
def on_message (store : List PMsg) (decoded : Option JVal) : Except PyExc (List PMsg) :=
  match parse_message decoded with
  | .error e => .error e
  | .ok none => .ok store
  | .ok (some m) => .ok (store ++ [m])

/-- Cells a consolidated table may hold in a non-timestamp column, for the
round-trip statement: numbers, NaN, and strings that do not collide with the
empty and numeral field forms `to_csv` uses for NaN and numbers (those read
back as NaN respectively as numbers, by type inference). -/
def plainCell : Cell → Prop
  | .cnum _ _ => True
  | .cnan => True
  | .cstr s => s ≠ "" ∧ parseIntChars s.data = none ∧ parseDecChars s.data = none
  | .cts _ => False

/-- A consolidated table as the pipeline writes it: rows match the header in
length, the `timestamp` column holds timestamps, other columns hold plain
cells. -/
def wellFormedTable (t : CTable) : Prop :=
  (∀ row ∈ t.rows, row.length = t.cols.length) ∧
  (∀ row ∈ t.rows, ∀ p ∈ t.cols.zip row,
    (p.1 = "timestamp" → ∃ t0, p.2 = Cell.cts t0) ∧
    (p.1 ≠ "timestamp" → plainCell p.2))


/-! # Theorems -/

/-! ## Windowing (claim C2) -/

theorem maxDaysPerRequest_pos (p : String) : 0 < maxDaysPerRequest p := by
  unfold maxDaysPerRequest
  split
  · norm_num
  · split
    · norm_num
    · split <;> norm_num

theorem maxRange_pos (p : String) :
    (0 : Int) < (maxDaysPerRequest p : Int) * minutesPerDay := by
  have h1 := maxDaysPerRequest_pos p
  have h2 : (0 : Int) < minutesPerDay := by norm_num [minutesPerDay]
  exact mul_pos (by exact_mod_cast h1) h2

theorem iter_time_windows_chain (maxR endT : Int) (hm : 0 < maxR) :
    ∀ current, current < endT →
      chainCover maxR current endT (iter_time_windows maxR endT current) := by
  intro current hcur
  have hgen : ∀ n : Nat, ∀ current, (endT - current).toNat ≤ n → current < endT →
      chainCover maxR current endT (iter_time_windows maxR endT current) := by
    intro n
    induction n with
    | zero => intro c hc hlt; omega
    | succ n ih =>
      intro c hc hlt
      rw [iter_time_windows]
      simp only [hlt, hm, and_self, dite_true]
      refine ⟨rfl, ?_, ?_, ?_⟩
      · omega
      · omega
      · by_cases hnext : min (c + maxR) endT < endT
        · exact ih _ (by omega) hnext
        · have he : min (c + maxR) endT = endT := by omega
          rw [he, iter_time_windows]
          simp only [lt_self_iff_false, false_and, dite_false]
          rfl
  exact hgen (endT - current).toNat current le_rfl hcur

theorem chainCover_le {maxR : Int} :
    ∀ {s e : Int} {ws : List (Int × Int)}, chainCover maxR s e ws → s ≤ e := by
  intro s e ws
  induction ws generalizing s with
  | nil => intro h; exact le_of_eq h
  | cons w ws ih =>
    intro h
    obtain ⟨h1, h2, h3, h4⟩ := h
    have := ih h4
    omega

theorem chainCover_start_le {maxR : Int} :
    ∀ {s e : Int} {ws : List (Int × Int)}, chainCover maxR s e ws →
      ∀ w ∈ ws, s ≤ w.1 := by
  intro s e ws
  induction ws generalizing s with
  | nil => intro _ w hw; cases hw
  | cons v vs ih =>
    intro h w hw
    obtain ⟨h1, h2, h3, h4⟩ := h
    rcases List.mem_cons.mp hw with rfl | hmem
    · omega
    · have := ih h4 w hmem
      omega

theorem chainCover_mem_iff {maxR : Int} :
    ∀ {s e : Int} {ws : List (Int × Int)}, chainCover maxR s e ws →
      ∀ t : Int, (s ≤ t ∧ t < e) ↔ ∃ w ∈ ws, w.1 ≤ t ∧ t < w.2 := by
  intro s e ws
  induction ws generalizing s with
  | nil =>
    intro hc t
    have hse : s = e := hc
    subst hse
    exact ⟨fun hh => absurd hh (by omega), fun ⟨w, hw, _⟩ => absurd hw (List.not_mem_nil w)⟩
  | cons w ws ih =>
    intro hc t
    obtain ⟨hw1, hlt, _, hrest⟩ := hc
    have hiff := ih hrest t
    have hbound : w.2 ≤ e := chainCover_le hrest
    constructor
    · rintro ⟨hs, he⟩
      by_cases hcase : t < w.2
      · exact ⟨w, List.mem_cons_self w ws, by omega, hcase⟩
      · obtain ⟨w', hw', hw'2⟩ := hiff.mp ⟨by omega, he⟩
        exact ⟨w', List.mem_cons_of_mem _ hw', hw'2⟩
    · rintro ⟨w', hw', hle, hlt'⟩
      rcases List.mem_cons.mp hw' with rfl | hmem
      · omega
      · have := hiff.mpr ⟨w', hmem, hle, hlt'⟩
        omega

theorem chainCover_disjoint {maxR : Int} :
    ∀ {s e : Int} {ws : List (Int × Int)}, chainCover maxR s e ws →
      ws.Pairwise (fun w w' => w.2 ≤ w'.1) := by
  intro s e ws
  induction ws generalizing s with
  | nil => intro _; exact List.Pairwise.nil
  | cons w ws ih =>
    intro hc
    obtain ⟨hw1, hlt, _, hrest⟩ := hc
    exact List.Pairwise.cons (fun w' hw' => chainCover_start_le hrest w' hw') (ih hrest)

/-- **C2.** For every requested range `[start, end)` whose length exceeds the
interval's maximum range, the client splits it into consecutive
left-inclusive right-exclusive sub-windows, each at most the maximum range,
that cover `[start, end)` with no overlap and no gap (`chainCover`, plus the
derived pointwise cover and pairwise disjointness); in particular, for the
7-day maximum range of interval `"5m"` and a 20-day requested range it
issues exactly the 3 sub-windows `[d0,d7), [d7,d14), [d14,d20)`. -/
theorem windowing_splits_cover (start endT : Int) (interval : String)
    (hbig : endT - start >
      (maxDaysPerRequest (convertInterval interval) : Int) * minutesPerDay) :
    chainCover ((maxDaysPerRequest (convertInterval interval) : Int) * minutesPerDay)
        start endT (facilityMetricsWindows start endT interval) ∧
    (∀ t : Int, (start ≤ t ∧ t < endT) ↔
        ∃ w ∈ facilityMetricsWindows start endT interval, w.1 ≤ t ∧ t < w.2) ∧
    (facilityMetricsWindows start endT interval).Pairwise (fun w w' => w.2 ≤ w'.1) ∧
    facilityMetricsWindows 0 (20 * minutesPerDay) "5m" =
      [(0, 7 * minutesPerDay), (7 * minutesPerDay, 14 * minutesPerDay),
        (14 * minutesPerDay, 20 * minutesPerDay)] := by
  have hpos := maxRange_pos (convertInterval interval)
  have hlt : start < endT := by omega
  have hws : facilityMetricsWindows start endT interval =
      iter_time_windows ((maxDaysPerRequest (convertInterval interval) : Int) * minutesPerDay)
        endT start := by
    unfold facilityMetricsWindows
    rw [if_pos hbig]
  have hchain := iter_time_windows_chain _ endT hpos start hlt
  rw [hws]
  refine ⟨hchain, chainCover_mem_iff hchain, chainCover_disjoint hchain, ?_⟩
  have h1 : convertInterval "5m" = "5m" := rfl
  unfold facilityMetricsWindows
  rw [h1]
  have h2 : maxDaysPerRequest "5m" = 7 := rfl
  rw [h2]
  norm_num [minutesPerDay]
  rw [iter_time_windows]; norm_num
  rw [iter_time_windows]; norm_num
  rw [iter_time_windows]; norm_num
  rw [iter_time_windows]; norm_num

/-- Witness for C2 at `start = 0`, `end = 20` days, interval `"5m"`. -/
theorem windowing_splits_cover_witness :
    ((20 * minutesPerDay : Int) - 0 >
      (maxDaysPerRequest (convertInterval "5m") : Int) * minutesPerDay) ∧
    chainCover ((maxDaysPerRequest (convertInterval "5m") : Int) * minutesPerDay) 0
      (20 * minutesPerDay) (facilityMetricsWindows 0 (20 * minutesPerDay) "5m") :=
  ⟨by decide, (windowing_splits_cover 0 (20 * minutesPerDay) "5m" (by decide)).1⟩

/-! ## Fetch error handling (claim C1) -/

/-- **C1 counterexample.** A non-404 HTTP error does *not* propagate to the
caller: with a 500 response for metric `power`, the per-facility fetch
(`_fetch_facility_metrics_single`) returns normally — its outer
`except Exception` swallows the re-raised `HTTPError` — and goes on to fetch
and yield the `emissions` records; the bulk path
(`fetch_facilities_metrics`) likewise swallows a 500 and continues. -/
theorem fetch_error_propagation_counterexample :
    fetch_facility_metrics_single
        (fun m => if m = "power" then FetchResult.httpError 500
          else FetchResult.ok [[("timestamp", PyVal.vdt 0), ("value", PyVal.vnum 2)]])
        "F1" ["power", "emissions"] =
      .ok [[("timestamp", PyVal.vdt 0), ("value", PyVal.vnum 2),
            ("facility_id", PyVal.vstr "F1"), ("metric", PyVal.vstr "emissions")]] ∧
    processBulkRequests (fun _ => FetchResult.httpError 500) [("power", (0, 1), ["F1"])] =
      .ok [] := by
  constructor <;> rfl

/-- Unfolding step for `fetch_facility_metrics_single` on a nonempty metric
list. -/
theorem fetch_single_cons (resp : String → FetchResult) (fc m : String)
    (ms : List String) :
    fetch_facility_metrics_single resp fc (m :: ms) =
      match innerMetricFetch resp fc m with
      | .ok recs =>
        match fetch_facility_metrics_single resp fc ms with
        | .ok tail => .ok (recs ++ tail)
        | .error e => .error e
      | .error _ => fetch_facility_metrics_single resp fc ms := rfl

/-- Unfolding step for `processBulkRequests` on a nonempty request list. -/
theorem processBulk_cons (resp : BulkReq → FetchResult) (req : BulkReq)
    (rest : List BulkReq) :
    processBulkRequests resp (req :: rest) =
      match resp req with
      | .ok recs =>
        match processBulkRequests resp rest with
        | .ok tail => .ok (recs ++ tail)
        | .error e => .error e
      | .httpError s =>
        if s = 404 ∨ s = 416 then processBulkRequests resp rest
        else if s = 500 then processBulkRequests resp rest
        else .error (.http s)
      | .otherExc => .error PyExc.otherError := rfl

/-- **C1 (amended).** A 404 on an individual metric/entity combination is
swallowed and fetching continues with the other (entity, metric) pairs.  In
the per-facility path (`_fetch_facility_metrics_single`) the surrounding
`except Exception` additionally swallows *every* other failure, so no HTTP
error propagates from it at all; in the bulk path
(`fetch_facilities_metrics`) the statuses 404, 416 and 500 are swallowed
(the batch is skipped) and only other HTTP statuses propagate to the caller,
without any automatic retry. -/
theorem fetch_error_swallowing_amended :
    (∀ (resp : String → FetchResult) (fc : String) (ms : List String),
      ∃ l, fetch_facility_metrics_single resp fc ms = .ok l) ∧
    (∀ (resp : String → FetchResult) (fc : String) (m : String) (ms : List String),
      resp m = .httpError 404 →
      fetch_facility_metrics_single resp fc (m :: ms) =
        fetch_facility_metrics_single resp fc ms) ∧
    (∀ (resp : BulkReq → FetchResult) (reqs : List BulkReq) (s : Nat),
      processBulkRequests resp reqs = .error (.http s) →
      ¬(s = 404 ∨ s = 416 ∨ s = 500)) ∧
    (∀ (resp : BulkReq → FetchResult) (reqs : List BulkReq),
      (∀ req ∈ reqs, ∀ s, resp req = .httpError s → s = 404 ∨ s = 416 ∨ s = 500) →
      (∀ req ∈ reqs, resp req ≠ .otherExc) →
      ∃ l, processBulkRequests resp reqs = .ok l) := by
  refine ⟨?_, ?_, ?_, ?_⟩
  · intro resp fc ms
    induction ms with
    | nil => exact ⟨[], rfl⟩
    | cons m ms ih =>
      obtain ⟨l, hl⟩ := ih
      rw [fetch_single_cons]
      cases hinner : innerMetricFetch resp fc m with
      | ok recs =>
        rw [hl]
        exact ⟨recs ++ l, rfl⟩
      | error e =>
        exact ⟨l, hl⟩
  · intro resp fc m ms h404
    have hinner : innerMetricFetch resp fc m = .ok [] := by
      unfold innerMetricFetch
      rw [h404]
      rfl
    rw [fetch_single_cons, hinner]
    cases htail : fetch_facility_metrics_single resp fc ms <;> simp
  · intro resp reqs
    induction reqs with
    | nil => intro s hs; cases hs
    | cons req rest ih =>
      intro s hs
      rw [processBulk_cons] at hs
      cases hresp : resp req with
      | ok recs =>
        rw [hresp] at hs
        cases htail : processBulkRequests resp rest with
        | ok tail => rw [htail] at hs; cases hs
        | error e =>
          rw [htail] at hs
          cases hs
          exact ih s htail
      | httpError st =>
        rw [hresp] at hs
        dsimp only at hs
        by_cases h1 : st = 404 ∨ st = 416
        · rw [if_pos h1] at hs
          exact ih s hs
        · rw [if_neg h1] at hs
          by_cases h2 : st = 500
          · rw [if_pos h2] at hs
            exact ih s hs
          · rw [if_neg h2] at hs
            cases hs
            intro hcon
            rcases hcon with h | h | h
            · exact h1 (Or.inl h)
            · exact h1 (Or.inr h)
            · exact h2 h
      | otherExc =>
        rw [hresp] at hs
        cases hs
  · intro resp reqs
    induction reqs with
    | nil => intro _ _; exact ⟨[], rfl⟩
    | cons req rest ih =>
      intro hstat hexc
      obtain ⟨l, hl⟩ := ih
        (fun r hr => hstat r (List.mem_cons_of_mem _ hr))
        (fun r hr => hexc r (List.mem_cons_of_mem _ hr))
      rw [processBulk_cons]
      cases hresp : resp req with
      | ok recs =>
        rw [hl]
        exact ⟨recs ++ l, rfl⟩
      | httpError st =>
        dsimp only
        have hset : st = 404 ∨ st = 416 ∨ st = 500 :=
          hstat req (List.mem_cons_self _ _) st hresp
        by_cases h1 : st = 404 ∨ st = 416
        · rw [if_pos h1]; exact ⟨l, hl⟩
        · have h2 : st = 500 := by
            rcases hset with h | h | h
            · exact absurd (Or.inl h) h1
            · exact absurd (Or.inr h) h1
            · exact h
          rw [if_neg h1, if_pos h2]
          exact ⟨l, hl⟩
      | otherExc =>
        exact absurd hresp (hexc req (List.mem_cons_self _ _))

/-- Witness for C1 (amended) at concrete oracles: a 500 single-path fetch
still returns normally, a 403 bulk error is indeed outside the swallowed
set, and an all-416 bulk run completes. -/
theorem fetch_error_swallowing_amended_witness :
    (∃ l, fetch_facility_metrics_single (fun _ => FetchResult.httpError 500) "F1"
        ["power"] = .ok l) ∧
    ¬((403 : Nat) = 404 ∨ (403 : Nat) = 416 ∨ (403 : Nat) = 500) ∧
    (∃ l, processBulkRequests (fun _ => FetchResult.httpError 416)
        [("power", (0, 1), ["A"])] = .ok l) := by
  refine ⟨fetch_error_swallowing_amended.1 _ "F1" ["power"], ?_, ?_⟩
  · exact fetch_error_swallowing_amended.2.2.1 (fun _ => FetchResult.httpError 403)
      [("power", (0, 1), ["A"])] 403 rfl
  · refine fetch_error_swallowing_amended.2.2.2 (fun _ => FetchResult.httpError 416)
      [("power", (0, 1), ["A"])] ?_ ?_
    · intro req hreq s hs
      injection hs with h
      subst h
      right; left; rfl
    · intro req hreq hcon
      cases hcon

/-! ## Orchestrator caching (claims C3, C4, C8) -/

theorem fsLookup_insert (fs : FS) (p : String) (t : List NRow) :
    fsLookup (fsInsert fs p t) p = some t := by
  simp [fsLookup, fsInsert, List.find?]

/-- Cache-hit branch of the orchestrator. -/
theorem retrieve_hit (cc : CacheCfg) (fs : FS) (start endT : Int) (ap : Bool)
    (records : List RawRecord) (process : List NRow → List NRow) (cached : List NRow)
    (hc : fsLookup fs (build_cache_path cc start endT "") = some cached) :
    retrieve_and_cache_dataset cc fs start endT true ap records process =
      ⟨.ok cached, fs, 0⟩ := by
  unfold retrieve_and_cache_dataset
  rw [hc]

/-- Cache-miss branch of the orchestrator. -/
theorem retrieve_miss (cc : CacheCfg) (fs : FS) (start endT : Int) (useCache ap : Bool)
    (records : List RawRecord) (process : List NRow → List NRow)
    (hmiss : fsLookup fs (build_cache_path cc start endT "") = none) :
    retrieve_and_cache_dataset cc fs start endT useCache ap records process =
      match normalise_timeseries_records records with
      | .error _ => ⟨.error .valueError, fs, 1⟩
      | .ok normalised =>
        if normalised.isEmpty then
          if ap then ⟨.ok [], fs, 1⟩ else ⟨.error .emptyResult, fs, 1⟩
        else
          ⟨.ok (process normalised),
            fsInsert fs (build_cache_path cc start endT "") (process normalised), 1⟩ := by
  unfold retrieve_and_cache_dataset
  rw [hmiss]
  cases useCache <;> rfl

/-- Every orchestrator call runs at most one remote fetch sequence. -/
theorem retrieve_remote_le_one (cc : CacheCfg) (fs : FS) (start endT : Int)
    (useCache ap : Bool) (records : List RawRecord) (process : List NRow → List NRow) :
    (retrieve_and_cache_dataset cc fs start endT useCache ap records
      process).remoteFetchSequences ≤ 1 := by
  unfold retrieve_and_cache_dataset
  split
  · norm_num
  · split
    · norm_num
    · split
      · split <;> norm_num
      · norm_num

/-- `build_cache_path` depends only on the calendar dates of its instants
(and the suffix and configuration). -/
theorem build_cache_path_dates (cc : CacheCfg) (s s' e e' : Int) (suf : String)
    (hs : dateOf s = dateOf s') (he : dateOf e = dateOf e') :
    build_cache_path cc s e suf = build_cache_path cc s' e' suf := by
  unfold build_cache_path
  rw [hs, he]

/-- Shared cache-transfer lemma: if the first call (caching enabled) returned
`t1` and either hit an existing cache file or cached a nonempty normalised
dataset, then any second call with caching enabled whose `start`/`end` fall
on the same calendar dates — regardless of its records, post-processing or
partial-tolerance flag — returns `t1` from the cache with no remote fetch. -/
theorem orchestrator_cache_transfer (cc : CacheCfg) (fs : FS) (start endT : Int)
    (ap : Bool) (records : List RawRecord) (process : List NRow → List NRow)
    (t1 : List NRow)
    (h1 : (retrieve_and_cache_dataset cc fs start endT true ap records process).result =
      .ok t1)
    (h2 : fsLookup fs (build_cache_path cc start endT "") ≠ none ∨
      ¬(normalise_timeseries_records records = .ok []))
    (start' endT' : Int) (ap' : Bool) (records' : List RawRecord)
    (process' : List NRow → List NRow)
    (hds : dateOf start' = dateOf start) (hde : dateOf endT' = dateOf endT) :
    retrieve_and_cache_dataset cc
        (retrieve_and_cache_dataset cc fs start endT true ap records process).fs
        start' endT' true ap' records' process' =
      ⟨.ok t1, (retrieve_and_cache_dataset cc fs start endT true ap records process).fs,
        0⟩ := by
  have hpath : build_cache_path cc start' endT' "" = build_cache_path cc start endT "" :=
    build_cache_path_dates cc start' start endT' endT "" hds hde
  cases hcache : fsLookup fs (build_cache_path cc start endT "") with
  | some cached =>
    rw [retrieve_hit cc fs start endT ap records process cached hcache] at h1 ⊢
    have ht : cached = t1 := by
      simpa using h1
    subst ht
    exact retrieve_hit cc fs start' endT' ap' records' process' cached (hpath ▸ hcache)
  | none =>
    have hnn : ¬(normalise_timeseries_records records = .ok []) := by
      rcases h2 with h | h
      · exact absurd hcache h
      · exact h
    rw [retrieve_miss cc fs start endT true ap records process hcache] at h1 ⊢
    cases hnorm : normalise_timeseries_records records with
    | error e =>
      rw [hnorm] at h1
      cases h1
    | ok nr =>
      rw [hnorm] at h1
      dsimp only at h1 ⊢
      cases hemp : nr.isEmpty with
      | true =>
        exact absurd (by rw [hnorm, List.isEmpty_iff.mp hemp]) hnn
      | false =>
        simp only [hemp, Bool.false_eq_true, if_false] at h1 ⊢
        have ht : process nr = t1 := by
          simpa using h1
        rw [retrieve_hit cc _ start' endT' ap' records' process' (process nr)
          (by rw [hpath]; exact fsLookup_insert fs _ (process nr))]
        rw [ht]

/-- **C3 counterexample.** With identical arguments, caching enabled and
`allow_partial = True`, a first call whose normalisation is empty writes no
cache file, so calling the orchestrator twice performs **two** remote fetch
sequences, falsifying "at most one remote fetch sequence". -/
theorem orchestrator_idempotence_counterexample :
    (retrieve_and_cache_dataset ⟨"cache", "consolidated.csv"⟩ [] 0 1 true true []
        id).remoteFetchSequences +
      (retrieve_and_cache_dataset ⟨"cache", "consolidated.csv"⟩
        (retrieve_and_cache_dataset ⟨"cache", "consolidated.csv"⟩ [] 0 1 true true []
          id).fs
        0 1 true true [] id).remoteFetchSequences = 2 := rfl

/-- **C3 (amended).** Calling the orchestrator twice with identical
(start, end, metrics) and caching enabled performs at most one remote fetch
sequence in total — provided the first call either found an existing cache
file or cached a nonempty normalised dataset: the second call then issues no
remote calls and returns the cached result unchanged.  (Without that proviso
— a first call that raises, or returns an empty dataset under
`allow_partial`, writes no cache file — the second call fetches again.) -/
theorem orchestrator_idempotent_amended (cc : CacheCfg) (fs : FS) (start endT : Int)
    (ap : Bool) (records : List RawRecord) (process : List NRow → List NRow)
    (t1 : List NRow)
    (h1 : (retrieve_and_cache_dataset cc fs start endT true ap records process).result =
      .ok t1)
    (h2 : fsLookup fs (build_cache_path cc start endT "") ≠ none ∨
      ¬(normalise_timeseries_records records = .ok [])) :
    (retrieve_and_cache_dataset cc
        (retrieve_and_cache_dataset cc fs start endT true ap records process).fs
        start endT true ap records process).result = .ok t1 ∧
    (retrieve_and_cache_dataset cc
        (retrieve_and_cache_dataset cc fs start endT true ap records process).fs
        start endT true ap records process).remoteFetchSequences = 0 ∧
    (retrieve_and_cache_dataset cc fs start endT true ap records
        process).remoteFetchSequences +
      (retrieve_and_cache_dataset cc
        (retrieve_and_cache_dataset cc fs start endT true ap records process).fs
        start endT true ap records process).remoteFetchSequences ≤ 1 := by
  have h := orchestrator_cache_transfer cc fs start endT ap records process t1 h1 h2
    start endT ap records process rfl rfl
  rw [h]
  refine ⟨rfl, rfl, ?_⟩
  have := retrieve_remote_le_one cc fs start endT true ap records process
  dsimp only
  omega

/-- Witness for C3 (amended): one raw record normalises to one row, the
first call caches it, the second call returns it without fetching. -/
theorem orchestrator_idempotent_amended_witness :
    ((retrieve_and_cache_dataset ⟨"cache", "consolidated.csv"⟩ [] 0 1 true false
        [[("metric", PyVal.vstr "power"), ("timestamp", PyVal.vdt 0),
          ("value", PyVal.vnum 10)]] id).result =
      .ok [{ metric := some (PyVal.vstr "power"), timestamp := 0,
             value := some 10, facilityId := none, region := none,
             networkRegion := none }]) ∧
    (retrieve_and_cache_dataset ⟨"cache", "consolidated.csv"⟩
        (retrieve_and_cache_dataset ⟨"cache", "consolidated.csv"⟩ [] 0 1 true false
          [[("metric", PyVal.vstr "power"), ("timestamp", PyVal.vdt 0),
            ("value", PyVal.vnum 10)]] id).fs
        0 1 true false
        [[("metric", PyVal.vstr "power"), ("timestamp", PyVal.vdt 0),
          ("value", PyVal.vnum 10)]] id).result =
      .ok [{ metric := some (PyVal.vstr "power"), timestamp := 0,
             value := some 10, facilityId := none, region := none,
             networkRegion := none }] := by
  constructor
  · rfl
  · have hn : normalise_timeseries_records
        [[("metric", PyVal.vstr "power"), ("timestamp", PyVal.vdt 0),
          ("value", PyVal.vnum 10)]] =
        Except.ok [{ metric := some (PyVal.vstr "power"), timestamp := 0,
                     value := some 10, facilityId := none, region := none,
                     networkRegion := none }] := rfl
    exact (orchestrator_idempotent_amended ⟨"cache", "consolidated.csv"⟩ [] 0 1 false
      [[("metric", PyVal.vstr "power"), ("timestamp", PyVal.vdt 0),
        ("value", PyVal.vnum 10)]] id _ rfl
      (Or.inr (fun hcon => by rw [hn] at hcon; cases hcon))).1

/-- **C4.** The cache location computed by `build_cache_path` depends only on
the calendar dates of `start` and `end` (time of day is discarded), the
optional suffix, and the configured cache settings — it is not even passed
the requested metrics, interval, region or endpoint mode — and
`retrieve_and_cache_dataset` always calls it with no suffix; hence with
`use_cache=True`, two orchestrator requests whose `start` and `end` fall on
the same calendar dates resolve to the same cache file, and the second
request returns the first request's cached dataset with no remote fetch,
even when its records (i.e. its metrics, interval, or endpoint mode) and
post-processing differ arbitrarily. -/
theorem cache_path_date_collision :
    (∀ (cc : CacheCfg) (s s' e e' : Int) (suf : String),
      dateOf s = dateOf s' → dateOf e = dateOf e' →
      build_cache_path cc s e suf = build_cache_path cc s' e' suf) ∧
    (∀ (cc : CacheCfg) (fs : FS) (start endT : Int) (ap : Bool)
      (records : List RawRecord) (process : List NRow → List NRow) (t1 : List NRow),
      (retrieve_and_cache_dataset cc fs start endT true ap records process).result =
        .ok t1 →
      (fsLookup fs (build_cache_path cc start endT "") ≠ none ∨
        ¬(normalise_timeseries_records records = .ok [])) →
      ∀ (start' endT' : Int) (ap' : Bool) (records' : List RawRecord)
        (process' : List NRow → List NRow),
        dateOf start' = dateOf start → dateOf endT' = dateOf endT →
        (retrieve_and_cache_dataset cc
            (retrieve_and_cache_dataset cc fs start endT true ap records process).fs
            start' endT' true ap' records' process').result = .ok t1 ∧
        (retrieve_and_cache_dataset cc
            (retrieve_and_cache_dataset cc fs start endT true ap records process).fs
            start' endT' true ap' records' process').remoteFetchSequences = 0) := by
  constructor
  · exact fun cc s s' e e' suf hs he => build_cache_path_dates cc s s' e e' suf hs he
  · intro cc fs start endT ap records process t1 h1 h2 start' endT' ap' records'
      process' hds hde
    have h := orchestrator_cache_transfer cc fs start endT ap records process t1 h1 h2
      start' endT' ap' records' process' hds hde
    rw [h]
    exact ⟨rfl, rfl⟩

/-- Witness for C4: the first request fetches `power` records over
`[0, 1441)`; the second request uses different records (an `emissions`
series) and different times of day `[10, 1442)` on the same calendar dates,
yet returns the first request's cached dataset. -/
theorem cache_path_date_collision_witness :
    dateOf (10 : Int) = dateOf (0 : Int) ∧
    (retrieve_and_cache_dataset ⟨"cache", "consolidated.csv"⟩
        (retrieve_and_cache_dataset ⟨"cache", "consolidated.csv"⟩ [] 0 1441 true false
          [[("metric", PyVal.vstr "power"), ("timestamp", PyVal.vdt 0),
            ("value", PyVal.vnum 10)]] id).fs
        10 1442 true false
        [[("metric", PyVal.vstr "emissions"), ("timestamp", PyVal.vdt 5),
          ("value", PyVal.vnum 2)]] id).result =
      .ok [{ metric := some (PyVal.vstr "power"), timestamp := 0,
             value := some 10, facilityId := none, region := none,
             networkRegion := none }] := by
  constructor
  · rfl
  · have hn : normalise_timeseries_records
        [[("metric", PyVal.vstr "power"), ("timestamp", PyVal.vdt 0),
          ("value", PyVal.vnum 10)]] =
        Except.ok [{ metric := some (PyVal.vstr "power"), timestamp := 0,
                     value := some 10, facilityId := none, region := none,
                     networkRegion := none }] := rfl
    exact (cache_path_date_collision.2 ⟨"cache", "consolidated.csv"⟩ [] 0 1441 false
      [[("metric", PyVal.vstr "power"), ("timestamp", PyVal.vdt 0),
        ("value", PyVal.vnum 10)]] id _ rfl
      (Or.inr (fun hcon => by rw [hn] at hcon; cases hcon))
      10 1442 false
      [[("metric", PyVal.vstr "emissions"), ("timestamp", PyVal.vdt 5),
        ("value", PyVal.vnum 2)]] id rfl rfl).1

/-- **C8.** On the fetch path (cache miss), if normalisation yields zero
rows the orchestrator raises the hard empty-result error when
`allow_partial` is false (the default), and returns an explicitly empty
table when `allow_partial` is true; when normalisation yields at least one
row, no such error is raised — the call returns a table. -/
theorem orchestrator_empty_result_policy (cc : CacheCfg) (fs : FS) (start endT : Int)
    (useCache ap : Bool) (records : List RawRecord) (process : List NRow → List NRow)
    (hmiss : fsLookup fs (build_cache_path cc start endT "") = none)
    (nr : List NRow) (hnorm : normalise_timeseries_records records = .ok nr) :
    (nr = [] → ap = false →
      (retrieve_and_cache_dataset cc fs start endT useCache ap records process).result =
        .error .emptyResult) ∧
    (nr = [] → ap = true →
      (retrieve_and_cache_dataset cc fs start endT useCache ap records process).result =
        .ok []) ∧
    (nr ≠ [] →
      (retrieve_and_cache_dataset cc fs start endT useCache ap records process).result =
        .ok (process nr) ∧
      (retrieve_and_cache_dataset cc fs start endT useCache ap records process).result ≠
        .error .emptyResult) := by
  rw [retrieve_miss cc fs start endT useCache ap records process hmiss, hnorm]
  refine ⟨?_, ?_, ?_⟩
  · intro hnil hap
    subst hnil
    subst hap
    rfl
  · intro hnil hap
    subst hnil
    subst hap
    rfl
  · intro hne
    have hemp : nr.isEmpty = false := by
      cases h : nr.isEmpty
      · rfl
      · exact absurd (List.isEmpty_iff.mp h) hne
    simp only [hemp, Bool.false_eq_true, if_false]
    exact ⟨by trivial, fun hcon => by simp at hcon⟩

/-- Witness for C8 with empty records on both `allow_partial` settings. -/
theorem orchestrator_empty_result_policy_witness :
    (retrieve_and_cache_dataset ⟨"cache", "consolidated.csv"⟩ [] 0 1 true false []
        id).result = .error .emptyResult ∧
    (retrieve_and_cache_dataset ⟨"cache", "consolidated.csv"⟩ [] 0 1 true true []
        id).result = .ok [] :=
  ⟨(orchestrator_empty_result_policy ⟨"cache", "consolidated.csv"⟩ [] 0 1 true false []
      id rfl [] rfl).1 rfl rfl,
   (orchestrator_empty_result_policy ⟨"cache", "consolidated.csv"⟩ [] 0 1 true true []
      id rfl [] rfl).2.1 rfl rfl⟩

/-! ## Publisher (claim C7) -/

/-- **C7.** For every consolidated table carrying the primary-metric columns,
the publisher emits exactly the rows in which both `power` and `emissions`
are non-null — rows missing a required primary metric are silently excluded
rather than causing an error — one message per row, in ascending timestamp
order. -/
theorem publish_dataset_filter_sorted (df : PubFrame)
    (hp : df.cols.contains "power" = true)
    (he : df.cols.contains "emissions" = true) :
    (publish_dataset df).Perm
      (df.rows.filter (fun r => cellNotNa r "power" && cellNotNa r "emissions")) ∧
    (publish_dataset df).Sorted (fun a b => a.ts ≤ b.ts) := by
  haveI htot : IsTotal PubRow (fun a b => a.ts ≤ b.ts) := ⟨fun a b => le_total a.ts b.ts⟩
  haveI htr : IsTrans PubRow (fun a b => a.ts ≤ b.ts) :=
    ⟨fun a b c hab hbc => le_trans hab hbc⟩
  have hp2 : "power" ∈ df.cols := by simpa using hp
  have he2 : "emissions" ∈ df.cols := by simpa using he
  have hmiss : (["power", "emissions"].filter (fun c => !(df.cols.contains c))) = [] := by
    simp [List.filter, hp2, he2]
  unfold publish_dataset
  rw [hmiss]
  by_cases h0 : df.rows.isEmpty
  · rw [if_pos h0, List.isEmpty_iff.mp h0]
    exact ⟨List.Perm.refl _, List.sorted_nil⟩
  · rw [if_neg h0]
    simp only [List.isEmpty_nil, if_true]
    by_cases hc : (df.rows.filter
        (fun r => cellNotNa r "power" && cellNotNa r "emissions")).isEmpty
    · rw [if_pos hc, List.isEmpty_iff.mp hc]
      exact ⟨List.Perm.refl _, List.sorted_nil⟩
    · rw [if_neg hc]
      exact ⟨List.perm_insertionSort _ _, List.sorted_insertionSort _ _⟩

/-- Witness for C7: a three-row frame where the row missing `emissions` is
excluded and the remaining rows are emitted in ascending timestamp order. -/
theorem publish_dataset_filter_sorted_witness :
    (publish_dataset
        ⟨["power", "emissions"],
         [⟨2, [("power", some 1), ("emissions", some 3)]⟩,
          ⟨1, [("power", some 4), ("emissions", some 5)]⟩,
          ⟨3, [("power", some 6), ("emissions", none)]⟩]⟩).Perm
      ([⟨2, [("power", some 1), ("emissions", some 3)]⟩,
        ⟨1, [("power", some 4), ("emissions", some 5)]⟩,
        ⟨3, [("power", some 6), ("emissions", none)]⟩].filter
          (fun r => cellNotNa r "power" && cellNotNa r "emissions")) ∧
    (publish_dataset
        ⟨["power", "emissions"],
         [⟨2, [("power", some 1), ("emissions", some 3)]⟩,
          ⟨1, [("power", some 4), ("emissions", some 5)]⟩,
          ⟨3, [("power", some 6), ("emissions", none)]⟩]⟩).Sorted
      (fun a b => a.ts ≤ b.ts) :=
  publish_dataset_filter_sorted
    ⟨["power", "emissions"],
     [⟨2, [("power", some 1), ("emissions", some 3)]⟩,
      ⟨1, [("power", some 4), ("emissions", some 5)]⟩,
      ⟨3, [("power", some 6), ("emissions", none)]⟩]⟩ rfl rfl

/-! ## Subscriber message handling (claim C6) -/

/-- **C6 counterexample.** The message handler *can* raise to the bus
callback: a JSON object whose `timestamp` field is present but numeric makes
`_parse_message` raise `AttributeError` (`.replace` on a non-string), and a
payload decoding to a bare JSON number makes `_on_message` raise `TypeError`
(`"timestamp" in message` on an `int`). -/
theorem subscriber_raises_counterexample :
    parse_message (some (.jobj [("timestamp", JVal.jnum 5)])) =
      .error .attributeError ∧
    on_message [] (some (.jnum 7)) = .error .typeError := by
  constructor <;> rfl

/-- **C6 (amended).** The subscriber's message handler never raises to the
bus callback *provided the decoded payload is a JSON object whose
`timestamp` field, when present, is a string*: malformed JSON is discarded
with a warning (contributing nothing to the store), and a string timestamp
that fails ISO parsing causes the whole message to be discarded
(contributing nothing to the store).  Payloads of other shapes — a non-object
top-level value, or a non-string timestamp — can raise
`TypeError`/`AttributeError` to the bus callback. -/
theorem on_message_eq (store : List PMsg) (decoded : Option JVal) :
    on_message store decoded =
      match parse_message decoded with
      | .error e => .error e
      | .ok none => .ok store
      | .ok (some m) => .ok (store ++ [m]) := rfl

theorem parse_message_obj (fields : List (String × JVal)) :
    parse_message (some (.jobj fields)) =
      match jlookup fields "timestamp" with
      | none => .ok (some (.obj (fields.map (fun kv => (kv.1, MVal.j kv.2)))))
      | some (.jstr s) =>
        match parseIso (strReplace s "Z" "+00:00") with
        | some t => .ok (some (.obj (setTimestamp fields t)))
        | none => .ok none
      | some _ => .error .attributeError := rfl

theorem parse_message_obj_str (fields : List (String × JVal)) (s : String)
    (hl : jlookup fields "timestamp" = some (.jstr s)) :
    parse_message (some (.jobj fields)) =
      match parseIso (strReplace s "Z" "+00:00") with
      | some t => .ok (some (.obj (setTimestamp fields t)))
      | none => .ok none := by
  rw [parse_message_obj, hl]

theorem subscriber_discard_amended :
    (∀ store : List PMsg, on_message store none = .ok store) ∧
    (∀ (store : List PMsg) (fields : List (String × JVal)),
      (∀ v, jlookup fields "timestamp" = some v → ∃ s, v = .jstr s) →
      ∃ st, on_message store (some (.jobj fields)) = .ok st) ∧
    (∀ (store : List PMsg) (fields : List (String × JVal)) (s : String),
      jlookup fields "timestamp" = some (.jstr s) →
      parseIso (strReplace s "Z" "+00:00") = none →
      on_message store (some (.jobj fields)) = .ok store) := by
  refine ⟨fun store => rfl, ?_, ?_⟩
  · intro store fields hstr
    cases hl : jlookup fields "timestamp" with
    | none =>
      rw [on_message_eq, parse_message_obj, hl]
      exact ⟨store ++ [.obj (fields.map (fun kv => (kv.1, MVal.j kv.2)))], rfl⟩
    | some v =>
      obtain ⟨s, rfl⟩ := hstr v hl
      rw [on_message_eq, parse_message_obj_str fields s hl]
      cases hp : parseIso (strReplace s "Z" "+00:00") with
      | none => exact ⟨store, rfl⟩
      | some t => exact ⟨store ++ [.obj (setTimestamp fields t)], rfl⟩
  · intro store fields s hl hp
    rw [on_message_eq, parse_message_obj_str fields s hl, hp]

/-- Witness for C6 (amended): bad JSON is dropped, and an object whose
string timestamp does not parse is dropped whole. -/
theorem subscriber_discard_amended_witness :
    on_message [] none = .ok [] ∧
    on_message [] (some (.jobj [("timestamp", JVal.jstr "abc")])) = .ok [] :=
  ⟨subscriber_discard_amended.1 [],
   subscriber_discard_amended.2.2 [] [("timestamp", JVal.jstr "abc")] "abc" rfl rfl⟩

/-! ## Normalisation drop behaviour (claim C5) -/

theorem collectRows_cons (r : RawRecord) (rs : List RawRecord) :
    collectRows (r :: rs) =
      match normaliseRow r with
      | .error e => .error e
      | .ok none => collectRows rs
      | .ok (some row) => (collectRows rs).map (fun tail => row :: tail) := rfl

theorem extract_timestamp_keyError (r : RawRecord) :
    extract_timestamp r = .error .keyError ↔
      firstPresentField r TIMESTAMP_FIELDS = none := by
  unfold extract_timestamp
  cases hts : firstPresentField r TIMESTAMP_FIELDS with
  | none => simp
  | some v =>
    cases v with
    | vdt t => simp
    | vstr s =>
      cases hp : parseIso (strReplace (pyStrOf (PyVal.vstr s)) "Z" "+00:00") <;> simp [hp]
    | vnum q =>
      cases hp : parseIso (strReplace (pyStrOf (PyVal.vnum q)) "Z" "+00:00") <;> simp [hp]
    | vnone =>
      cases hp : parseIso (strReplace (pyStrOf PyVal.vnone) "Z" "+00:00") <;> simp [hp]

theorem extract_value_error (r : RawRecord) (e : PyExc)
    (h : extract_value r = .error e) :
    e = .keyError ∧ firstPresentField r VALUE_FIELDS = none := by
  unfold extract_value at h
  cases hv : firstPresentField r VALUE_FIELDS with
  | none =>
    rw [hv] at h
    cases h
    exact ⟨rfl, rfl⟩
  | some v =>
    rw [hv] at h
    cases h

theorem normaliseRow_ok_none (r : RawRecord)
    (h : normaliseRow r = .ok none) :
    ((firstPresentField r TIMESTAMP_FIELDS).isNone ||
      (firstPresentField r VALUE_FIELDS).isNone) = true := by
  unfold normaliseRow at h
  cases hts : extract_timestamp r with
  | error e =>
    rw [hts] at h
    cases e
    case keyError =>
      rw [(extract_timestamp_keyError r).mp hts]
      rfl
    all_goals cases h
  | ok t =>
    rw [hts] at h
    cases hval : extract_value r with
    | error e =>
      obtain ⟨rfl, hnone⟩ := extract_value_error r e hval
      rw [hnone]
      simp
    | ok v =>
      rw [hval] at h
      cases h

theorem normaliseRow_ok_some (r : RawRecord) (row : NRow)
    (h : normaliseRow r = .ok (some row)) :
    (firstPresentField r TIMESTAMP_FIELDS).isNone = false ∧
    (firstPresentField r VALUE_FIELDS).isNone = false ∧
    row.metric = lookupField r "metric" := by
  unfold normaliseRow at h
  cases hts : extract_timestamp r with
  | error e =>
    rw [hts] at h
    cases e <;> cases h
  | ok t =>
    rw [hts] at h
    cases hval : extract_value r with
    | error e =>
      rw [hval] at h
      obtain ⟨rfl, _⟩ := extract_value_error r e hval
      cases h
    | ok v =>
      rw [hval] at h
      cases h
      refine ⟨?_, ?_, rfl⟩
      · cases ho : firstPresentField r TIMESTAMP_FIELDS with
        | none =>
          rw [← extract_timestamp_keyError] at ho
          rw [ho] at hts
          cases hts
        | some w => rfl
      · cases ho : firstPresentField r VALUE_FIELDS with
        | none =>
          unfold extract_value at hval
          rw [ho] at hval
          cases hval
        | some w => rfl

theorem collectRows_filter_count (rs : List RawRecord) :
    ∀ rows : List NRow, collectRows rs = .ok rows →
      (rows.filter (fun row => !(isNaLike row.metric))).length +
        rs.countP (fun r =>
          (firstPresentField r TIMESTAMP_FIELDS).isNone ||
          (firstPresentField r VALUE_FIELDS).isNone ||
          isNaLike (lookupField r "metric")) = rs.length := by
  induction rs with
  | nil =>
    intro rows h
    cases h
    rfl
  | cons r rs ih =>
    intro rows h
    rw [collectRows_cons] at h
    rw [List.length_cons]
    cases hnr : normaliseRow r with
    | error e =>
      rw [hnr] at h
      cases h
    | ok o =>
      rw [hnr] at h
      cases o with
      | none =>
        have hdrop := normaliseRow_ok_none r hnr
        have hp : ((firstPresentField r TIMESTAMP_FIELDS).isNone ||
            (firstPresentField r VALUE_FIELDS).isNone ||
            isNaLike (lookupField r "metric")) = true := by
          rcases Bool.or_eq_true_iff.mp hdrop with h1 | h2
          · simp [h1]
          · simp [h2]
        rw [List.countP_cons_of_pos (fun r =>
            (firstPresentField r TIMESTAMP_FIELDS).isNone ||
            (firstPresentField r VALUE_FIELDS).isNone ||
            isNaLike (lookupField r "metric")) rs hp]
        have := ih rows h
        omega
      | some row =>
        cases hc2 : collectRows rs with
        | error e =>
          rw [hc2] at h
          cases h
        | ok tail =>
          rw [hc2] at h
          cases h
          obtain ⟨hts, hval, hmet⟩ := normaliseRow_ok_some r row hnr
          have := ih tail hc2
          rw [List.filter_cons]
          cases hna : isNaLike row.metric with
          | true =>
            have hp : ((firstPresentField r TIMESTAMP_FIELDS).isNone ||
                (firstPresentField r VALUE_FIELDS).isNone ||
                isNaLike (lookupField r "metric")) = true := by
              rw [← hmet, hna]
              simp
            rw [List.countP_cons_of_pos (fun r =>
            (firstPresentField r TIMESTAMP_FIELDS).isNone ||
            (firstPresentField r VALUE_FIELDS).isNone ||
            isNaLike (lookupField r "metric")) rs hp]
            simp only [Bool.not_true, Bool.false_eq_true, if_false]
            omega
          | false =>
            have hp : ¬(((firstPresentField r TIMESTAMP_FIELDS).isNone ||
                (firstPresentField r VALUE_FIELDS).isNone ||
                isNaLike (lookupField r "metric")) = true) := by
              rw [← hmet, hna, hts, hval]
              simp
            rw [List.countP_cons_of_neg (fun r =>
            (firstPresentField r TIMESTAMP_FIELDS).isNone ||
            (firstPresentField r VALUE_FIELDS).isNone ||
            isNaLike (lookupField r "metric")) rs hp]
            simp only [Bool.not_false, if_true, List.length_cons]
            omega

/-- **C5 counterexample.** The record `{"metric": "power", "value": 5}` has a
value field and is therefore *not* missing both fields, yet normalisation
drops it (it lacks only a timestamp): the output has 0 rows although the
claim predicts `1 − 0 = 1`. -/
theorem normalise_drop_counterexample :
    normalise_timeseries_records
        [[("metric", PyVal.vstr "power"), ("value", PyVal.vnum 5)]] = .ok [] ∧
    ((firstPresentField [("metric", PyVal.vstr "power"), ("value", PyVal.vnum 5)]
        TIMESTAMP_FIELDS).isNone &&
      (firstPresentField [("metric", PyVal.vstr "power"), ("value", PyVal.vnum 5)]
        VALUE_FIELDS).isNone) = false := by
  constructor <;> rfl

/-- **C5 (amended).** When normalisation completes (no present-but-unparsable
timestamp, which raises instead), it drops exactly those records missing a
timestamp field, or missing a value field, or whose `metric` entry is absent
or `None` (removed by the final `dropna`): the output row count decreases by
exactly the number of such records.  A record whose value field is present
but fails numeric coercion is kept with value NaN rather than dropped. -/
theorem normalise_drop_amended :
    (∀ (rs : List RawRecord) (out : List NRow),
      normalise_timeseries_records rs = .ok out →
      out.length + rs.countP (fun r =>
        (firstPresentField r TIMESTAMP_FIELDS).isNone ||
        (firstPresentField r VALUE_FIELDS).isNone ||
        isNaLike (lookupField r "metric")) = rs.length) ∧
    (∀ (r : RawRecord) (t : Int) (v : PyVal),
      extract_timestamp r = .ok t →
      firstPresentField r VALUE_FIELDS = some v →
      coerceFloatQ v = none →
      isNaLike (lookupField r "metric") = false →
      ∃ row, normalise_timeseries_records [r] = .ok [row] ∧ row.value = none) := by
  constructor
  · intro rs out h
    unfold normalise_timeseries_records at h
    cases hc : collectRows rs with
    | error e =>
      rw [hc] at h
      cases h
    | ok rows =>
      rw [hc] at h
      cases h
      exact collectRows_filter_count rs rows hc
  · intro r t v hts hval hcoerce hmet
    have hrow : normaliseRow r = .ok (some
        { metric := lookupField r "metric"
          timestamp := t
          value := none
          facilityId := lookupField r "facility_id"
          region := lookupField r "region"
          networkRegion := lookupField r "network_region" }) := by
      unfold normaliseRow
      rw [hts]
      have hev : extract_value r = .ok none := by
        unfold extract_value
        rw [hval]
        show Except.ok (coerceFloatQ v) = Except.ok none
        rw [hcoerce]
      rw [hev]
    refine ⟨{ metric := lookupField r "metric", timestamp := t, value := none,
              facilityId := lookupField r "facility_id", region := lookupField r "region",
              networkRegion := lookupField r "network_region" }, ?_, rfl⟩
    unfold normalise_timeseries_records
    rw [collectRows_cons, hrow]
    show Except.ok (List.filter _ [_]) = _
    rw [List.filter_cons]
    simp only [hmet, Bool.not_false, if_true]
    rfl

/-- Witness for C5 (amended): a well-formed record plus a timestamp-less
record yield one output row and one drop; a record whose value `"abc"` fails
coercion is kept with NaN value. -/
theorem normalise_drop_amended_witness :
    ([{ metric := some (PyVal.vstr "power"), timestamp := 0, value := some 10,
        facilityId := none, region := none, networkRegion := none }] :
      List NRow).length +
      ([[("metric", PyVal.vstr "power"), ("timestamp", PyVal.vdt 0),
         ("value", PyVal.vnum 10)],
        [("metric", PyVal.vstr "power"), ("value", PyVal.vnum 5)]] :
        List RawRecord).countP (fun r =>
          (firstPresentField r TIMESTAMP_FIELDS).isNone ||
          (firstPresentField r VALUE_FIELDS).isNone ||
          isNaLike (lookupField r "metric")) = 2 ∧
    (∃ row, normalise_timeseries_records
        [[("metric", PyVal.vstr "power"), ("timestamp", PyVal.vdt 0),
          ("value", PyVal.vstr "abc")]] = .ok [row] ∧ row.value = none) :=
  ⟨normalise_drop_amended.1
      [[("metric", PyVal.vstr "power"), ("timestamp", PyVal.vdt 0),
        ("value", PyVal.vnum 10)],
       [("metric", PyVal.vstr "power"), ("value", PyVal.vnum 5)]]
      [{ metric := some (PyVal.vstr "power"), timestamp := 0, value := some 10,
         facilityId := none, region := none, networkRegion := none }] rfl,
   normalise_drop_amended.2
      [("metric", PyVal.vstr "power"), ("timestamp", PyVal.vdt 0),
       ("value", PyVal.vstr "abc")] 0 (PyVal.vstr "abc") rfl rfl rfl rfl⟩

/-! ## Pivoting (claim C9) -/

theorem pivot_metrics_eq (rows : List NRow) (h : rows.isEmpty = false) :
    pivot_metrics rows =
      sortOnTs PRow.ts
        ((((rows.filter (rowEligible (chooseEntCol rows))).map
            (rowKey (chooseEntCol rows))).dedup).map (fun k =>
          { ent := k.1
            ts := k.2
            cells := ((((rows.filter (rowEligible (chooseEntCol rows))).filterMap
                (fun r => r.metric)).dedup).filter
              (fun m => (rows.filter (rowEligible (chooseEntCol rows))).any
                (fun r => r.metric = some m ∧ r.value.isSome))).map (fun m =>
              (m, meanQ (((rows.filter (rowEligible (chooseEntCol rows))).filter
                  (fun r => rowKey (chooseEntCol rows) r = k ∧
                    r.metric = some m)).filterMap (fun r => r.value)))) })) := by
  unfold pivot_metrics
  simp only [h, Bool.false_eq_true, if_false]

theorem sortOnTs_perm {A : Type} (ts : A → Int) (l : List A) : (sortOnTs ts l).Perm l := by
  unfold sortOnTs
  exact List.perm_insertionSort _ _

theorem map_entts_mk (g : (Option PyVal × Int) → List (PyVal × Option Rat))
    (keys : List (Option PyVal × Int)) :
    (keys.map (fun k => ({ ent := k.1, ts := k.2, cells := g k } : PRow))).map
      (fun p => (p.ent, p.ts)) = keys := by
  rw [List.map_map]
  have hcomp : ((fun (p : PRow) => (p.ent, p.ts)) ∘
      (fun k => ({ ent := k.1, ts := k.2, cells := g k } : PRow))) = id :=
    funext fun k => rfl
  rw [hcomp, List.map_id]

theorem map_fst_pairs {A B : Type} (q : A → B) (cols : List A) :
    (cols.map (fun m => (m, q m))).map Prod.fst = cols := by
  rw [List.map_map]
  have hcomp : (Prod.fst ∘ fun m => (m, q m)) = id := funext fun m => rfl
  rw [hcomp, List.map_id]

theorem pivot_scenario_two_metrics :
    pivot_metrics
        [{ metric := some (PyVal.vstr "power"), timestamp := 0, value := some 10,
           facilityId := some (PyVal.vstr "A"), region := none, networkRegion := none },
         { metric := some (PyVal.vstr "emissions"), timestamp := 0, value := some 2,
           facilityId := some (PyVal.vstr "A"), region := none, networkRegion := none }] =
      [{ ent := some (PyVal.vstr "A"), ts := 0,
         cells := [(PyVal.vstr "power", some 10), (PyVal.vstr "emissions", some 2)] }] := by
  norm_num [pivot_metrics, chooseEntCol, rowEligible, rowKey, entValue, isNaLike,
    sortOnTs, meanQ, List.insertionSort, List.orderedInsert, List.dedup, List.filter,
    List.filterMap, List.any, List.map, List.pwFilter]

theorem pivot_scenario_dup_mean :
    pivot_metrics
        [{ metric := some (PyVal.vstr "power"), timestamp := 0, value := some 10,
           facilityId := some (PyVal.vstr "A"), region := none, networkRegion := none },
         { metric := some (PyVal.vstr "power"), timestamp := 0, value := some 20,
           facilityId := some (PyVal.vstr "A"), region := none, networkRegion := none }] =
      [{ ent := some (PyVal.vstr "A"), ts := 0,
         cells := [(PyVal.vstr "power", some 15)] }] := by
  norm_num [pivot_metrics, chooseEntCol, rowEligible, rowKey, entValue, isNaLike,
    sortOnTs, meanQ, List.insertionSort, List.orderedInsert, List.dedup, List.filter,
    List.filterMap, List.any, List.map, List.pwFilter]

/-- **C9.** For every normalised table, the pivoted output has at most one
row per (entity, timestamp) pair; every row carries each metric column
exactly once, all rows share the same columns, and every column is named by
a metric occurring in the input; concretely, `power` and `emissions` rows at
the same (entity, timestamp) pivot to exactly one row with both columns
populated, and duplicate values for the same key and metric are aggregated
by mean. -/
theorem pivot_unique_keys (rows : List NRow) :
    ((pivot_metrics rows).map (fun p => (p.ent, p.ts))).Nodup ∧
    (∀ p, p ∈ pivot_metrics rows → (p.cells.map Prod.fst).Nodup) ∧
    (∀ p, p ∈ pivot_metrics rows → ∀ p', p' ∈ pivot_metrics rows →
      p.cells.map Prod.fst = p'.cells.map Prod.fst) ∧
    (∀ p, p ∈ pivot_metrics rows → ∀ m, m ∈ p.cells.map Prod.fst →
      ∃ r, r ∈ rows ∧ r.metric = some m) ∧
    pivot_metrics
        [{ metric := some (PyVal.vstr "power"), timestamp := 0, value := some 10,
           facilityId := some (PyVal.vstr "A"), region := none, networkRegion := none },
         { metric := some (PyVal.vstr "emissions"), timestamp := 0, value := some 2,
           facilityId := some (PyVal.vstr "A"), region := none, networkRegion := none }] =
      [{ ent := some (PyVal.vstr "A"), ts := 0,
         cells := [(PyVal.vstr "power", some 10), (PyVal.vstr "emissions", some 2)] }] ∧
    pivot_metrics
        [{ metric := some (PyVal.vstr "power"), timestamp := 0, value := some 10,
           facilityId := some (PyVal.vstr "A"), region := none, networkRegion := none },
         { metric := some (PyVal.vstr "power"), timestamp := 0, value := some 20,
           facilityId := some (PyVal.vstr "A"), region := none, networkRegion := none }] =
      [{ ent := some (PyVal.vstr "A"), ts := 0,
         cells := [(PyVal.vstr "power", some 15)] }] := by
  by_cases h0 : rows.isEmpty
  · refine ⟨?_, ?_, ?_, ?_, pivot_scenario_two_metrics, pivot_scenario_dup_mean⟩ <;>
      simp [pivot_metrics, h0]
  · have h0f : rows.isEmpty = false := by
      cases h : rows.isEmpty
      · rfl
      · exact absurd h h0
    rw [pivot_metrics_eq rows h0f]
    refine ⟨?_, ?_, ?_, ?_, pivot_scenario_two_metrics, pivot_scenario_dup_mean⟩
    · rw [((sortOnTs_perm PRow.ts _).map (fun p => (p.ent, p.ts))).nodup_iff,
        map_entts_mk]
      exact List.nodup_dedup _
    · intro p hp
      rw [(sortOnTs_perm PRow.ts _).mem_iff, List.mem_map] at hp
      obtain ⟨k, _, rfl⟩ := hp
      rw [map_fst_pairs]
      exact (List.nodup_dedup _).filter _
    · intro p hp p' hp'
      rw [(sortOnTs_perm PRow.ts _).mem_iff, List.mem_map] at hp
      rw [(sortOnTs_perm PRow.ts _).mem_iff, List.mem_map] at hp'
      obtain ⟨k, _, rfl⟩ := hp
      obtain ⟨k', _, rfl⟩ := hp'
      rw [map_fst_pairs, map_fst_pairs]
    · intro p hp m hm
      rw [(sortOnTs_perm PRow.ts _).mem_iff, List.mem_map] at hp
      obtain ⟨k, _, rfl⟩ := hp
      rw [map_fst_pairs] at hm
      have hm2 := List.mem_of_mem_filter hm
      rw [List.mem_dedup, List.mem_filterMap] at hm2
      obtain ⟨r, hr, hrm⟩ := hm2
      exact ⟨r, List.mem_of_mem_filter hr, hrm⟩

/-- Witness for C9 at the concrete two-metric scenario: the keys of the
pivoted table are distinct and the `power` column indeed stems from an input
metric. -/
theorem pivot_unique_keys_witness :
    ((pivot_metrics
        [{ metric := some (PyVal.vstr "power"), timestamp := 0, value := some 10,
           facilityId := some (PyVal.vstr "A"), region := none, networkRegion := none },
         { metric := some (PyVal.vstr "emissions"), timestamp := 0, value := some 2,
           facilityId := some (PyVal.vstr "A"), region := none,
           networkRegion := none }]).map (fun p => (p.ent, p.ts))).Nodup :=
  (pivot_unique_keys
    [{ metric := some (PyVal.vstr "power"), timestamp := 0, value := some 10,
       facilityId := some (PyVal.vstr "A"), region := none, networkRegion := none },
     { metric := some (PyVal.vstr "emissions"), timestamp := 0, value := some 2,
       facilityId := some (PyVal.vstr "A"), region := none,
       networkRegion := none }]).1

/-! ## CSV codec round trip (claim C10) -/

theorem charVal_digitChar (d : Nat) (h : d < 10) : charVal (Nat.digitChar d) = d := by
  interval_cases d <;> rfl

theorem isDigitChar_digitChar (d : Nat) (h : d < 10) :
    isDigitChar (Nat.digitChar d) = true := by
  interval_cases d <;> rfl

theorem natStrAux_zero (fuel : Nat) : natStrAux fuel 0 = [] := by
  cases fuel <;> rfl

theorem natStrAux_spec (fuel : Nat) :
    ∀ n, 0 < n → n ≤ fuel →
      natStrAux fuel n ≠ [] ∧ (natStrAux fuel n).all isDigitChar = true ∧
      digitsVal ((natStrAux fuel n).map charVal) = n := by
  induction fuel with
  | zero => intro n h1 h2; omega
  | succ fuel ih =>
    intro n h1 h2
    have hne : ¬(n = 0) := by omega
    have hmod : n % 10 < 10 := Nat.mod_lt _ (by norm_num)
    unfold natStrAux
    rw [if_neg hne]
    by_cases hq : n / 10 = 0
    · rw [hq, natStrAux_zero]
      refine ⟨by simp, ?_, ?_⟩
      · simp [isDigitChar_digitChar _ hmod]
      · simp [digitsVal, charVal_digitChar _ hmod]
        omega
    · have hlt : n / 10 ≤ fuel := by
        have := Nat.div_lt_self h1 (show 1 < 10 by norm_num)
        omega
      obtain ⟨hne2, hall2, hval2⟩ := ih (n / 10) (Nat.pos_of_ne_zero hq) hlt
      refine ⟨by simp, ?_, ?_⟩
      · simp [isDigitChar_digitChar _ hmod, hall2]
      · simp [digitsVal, charVal_digitChar _ hmod, hval2]
        omega

theorem natStr_ne_nil (n : Nat) : (natStr n).data ≠ [] := by
  unfold natStr
  by_cases h : n = 0
  · subst h; simp
  · rw [if_neg h]
    have := (natStrAux_spec n n (Nat.pos_of_ne_zero h) le_rfl).1
    simpa using this

theorem natStr_all_digits (n : Nat) : (natStr n).data.all isDigitChar = true := by
  unfold natStr
  by_cases h : n = 0
  · subst h; rfl
  · rw [if_neg h]
    have hall := (natStrAux_spec n n (Nat.pos_of_ne_zero h) le_rfl).2.1
    simp only [List.all_eq_true] at hall ⊢
    intro x hx
    exact hall x (by simpa using hx)

theorem natStr_valBE (n : Nat) :
    digitsVal (((natStr n).data.map charVal).reverse) = n := by
  unfold natStr
  by_cases h : n = 0
  · subst h; rfl
  · rw [if_neg h]
    have hval := (natStrAux_spec n n (Nat.pos_of_ne_zero h) le_rfl).2.2
    show digitsVal (((natStrAux n n).reverse.map charVal).reverse) = n
    rw [← List.map_reverse, List.reverse_reverse]
    exact hval

theorem parseNatChars_of_digits (cs : List Char) (hne : cs ≠ [])
    (hall : cs.all isDigitChar = true) :
    parseNatChars cs = some (digitsVal ((cs.map charVal).reverse)) := by
  unfold parseNatChars
  rw [if_pos ⟨hne, hall⟩]

theorem parseNat_natStr (n : Nat) : parseNatChars (natStr n).data = some n := by
  rw [parseNatChars_of_digits _ (natStr_ne_nil n) (natStr_all_digits n), natStr_valBE]

theorem intStr_head_digit (n : Int) (hn : 0 ≤ n) : (intStr n).data = (natStr n.natAbs).data := by
  unfold intStr
  rw [if_neg (by omega)]
  simp

theorem parseInt_intStr (n : Int) : parseIntChars (intStr n).data = some n := by
  by_cases hneg : n < 0
  · have hd : (intStr n).data = '-' :: (natStr n.natAbs).data := by
      unfold intStr
      rw [if_pos hneg]
      rfl
    rw [hd]
    show (match parseNatChars (natStr n.natAbs).data with
      | some k => some (-(k : Int))
      | none => none) = some n
    rw [parseNat_natStr]
    show some (-(n.natAbs : Int)) = some n
    rw [Int.ofNat_natAbs_of_nonpos (le_of_lt hneg), neg_neg]
  · rw [intStr_head_digit n (by omega)]
    have hnd := natStr_ne_nil n.natAbs
    have hdig := natStr_all_digits n.natAbs
    unfold parseIntChars
    split
    · rename_i rest heq
      rw [heq] at hdig
      have h45 := List.all_eq_true.mp hdig '-' (List.mem_cons_self _ _)
      exact absurd h45 (by decide)
    · rw [parseNat_natStr]
      show some ((n.natAbs : Int)) = some n
      rw [Int.natAbs_of_nonneg (by omega)]

theorem digitsVal_append (xs ys : List Nat) :
    digitsVal (xs ++ ys) = digitsVal xs + 10 ^ xs.length * digitsVal ys := by
  induction xs with
  | nil => simp [digitsVal]
  | cons d ds ih =>
    show digitsVal (d :: (ds ++ ys)) = _
    simp only [digitsVal, List.length_cons]
    rw [ih]
    ring

theorem valBE_append (cs1 cs2 : List Char) :
    digitsVal (((cs1 ++ cs2).map charVal).reverse) =
      digitsVal ((cs2.map charVal).reverse) +
        10 ^ cs2.length * digitsVal ((cs1.map charVal).reverse) := by
  rw [List.map_append, List.reverse_append, digitsVal_append]
  simp

theorem digitsVal_zeros (k : Nat) : digitsVal (List.replicate k 0) = 0 := by
  induction k with
  | zero => rfl
  | succ k ih => simp [List.replicate_succ, digitsVal, ih]

theorem valBE_replicate_zero (k : Nat) :
    digitsVal (((List.replicate k '0').map charVal).reverse) = 0 := by
  have h1 : (List.replicate k '0').map charVal = List.replicate k 0 := by
    rw [List.map_replicate]
    rfl
  rw [h1, List.reverse_replicate, digitsVal_zeros]

theorem parseNatChars_dot_none (cs : List Char) (h : '.' ∈ cs) :
    parseNatChars cs = none := by
  unfold parseNatChars
  rw [if_neg]
  intro hcon
  have := List.all_eq_true.mp hcon.2 '.' h
  exact absurd this (by decide)

theorem takeWhile_append_stop {p : Char → Bool} {xs : List Char}
    (hxs : ∀ x ∈ xs, p x = true) {y : Char} (hy : p y = false) (ys : List Char) :
    (xs ++ y :: ys).takeWhile p = xs ∧ (xs ++ y :: ys).dropWhile p = y :: ys := by
  induction xs with
  | nil => simp [List.takeWhile, List.dropWhile, hy]
  | cons x xs ih =>
    have hx := hxs x (List.mem_cons_self _ _)
    obtain ⟨ih1, ih2⟩ := ih (fun z hz => hxs z (List.mem_cons_of_mem _ hz))
    simp [List.takeWhile, List.dropWhile, hx, ih1, ih2]

theorem digit_ne_dot {c : Char} (h : isDigitChar c = true) : (c != '.') = true := by
  have hne : c ≠ '.' := by
    intro hcon
    subst hcon
    exact absurd h (by decide)
  simpa using hne

theorem parseUnsignedDec_concat (intpart frac : List Char)
    (hi_ne : intpart ≠ []) (hi : intpart.all isDigitChar = true)
    (hf_ne : frac ≠ []) (hf : frac.all isDigitChar = true) :
    parseUnsignedDec (intpart ++ '.' :: frac) =
      some (digitsVal ((intpart.map charVal).reverse) * 10 ^ frac.length +
        digitsVal ((frac.map charVal).reverse), frac.length) := by
  have hsplit := @takeWhile_append_stop (fun c => c != '.') intpart
    (fun x hx => digit_ne_dot (List.all_eq_true.mp hi x hx))
    '.' (by decide) frac
  unfold parseUnsignedDec
  rw [hsplit.1, hsplit.2, parseNatChars_of_digits intpart hi_ne hi]
  show (match some (digitsVal ((intpart.map charVal).reverse)), parseNatChars frac with
    | some a, some b => some (a * 10 ^ frac.length + b, frac.length)
    | _, _ => none) = _
  rw [parseNatChars_of_digits frac hf_ne hf]

theorem intStr_data_ne_nil (m : Int) : (intStr m).data ≠ [] := by
  unfold intStr
  by_cases hm : m < 0
  · rw [if_pos hm]
    show ('-' :: (natStr m.natAbs).data) ≠ []
    simp
  · rw [if_neg hm]
    show (natStr m.natAbs).data ≠ []
    exact natStr_ne_nil _

theorem intStr_ne_empty (m : Int) : intStr m ≠ "" := by
  intro h
  exact intStr_data_ne_nil m (by rw [h])

theorem parseIntChars_dot (cs : List Char) (h : '.' ∈ cs) : parseIntChars cs = none := by
  unfold parseIntChars
  split
  · rename_i rest
    have hdot : '.' ∈ rest := by
      rcases List.mem_cons.mp h with h1 | h1
      · cases h1
      · exact h1
    rw [parseNatChars_dot_none rest hdot]
  · rw [parseNatChars_dot_none cs h]

theorem decodeField_int (s : String) (hne : s ≠ "") (n : Int)
    (hint : parseIntChars s.data = some n) :
    decodeField false s = .cnum n 0 := by
  unfold decodeField
  simp only [Bool.false_eq_true, if_false]
  rw [if_neg hne, hint]

theorem decodeField_dec (s : String) (hne : s ≠ "")
    (hint : parseIntChars s.data = none) (m : Int) (e : Nat)
    (hdec : parseDecChars s.data = some (m, e)) :
    decodeField false s = .cnum m e := by
  unfold decodeField
  simp only [Bool.false_eq_true, if_false]
  rw [if_neg hne, hint, hdec]

theorem decodeField_str (s : String) (hne : s ≠ "")
    (hint : parseIntChars s.data = none)
    (hdec : parseDecChars s.data = none) :
    decodeField false s = .cstr s := by
  unfold decodeField
  simp only [Bool.false_eq_true, if_false]
  rw [if_neg hne, hint, hdec]

theorem decode_encode_ts (t : Int) : decodeField true (encodeCell (.cts t)) = .cts t := by
  show decodeField true (intStr t) = .cts t
  unfold decodeField
  rw [if_pos rfl, parseInt_intStr]

theorem decode_encodeDec (m : Int) (e : Nat) :
    decodeField false (encodeDec m e) = .cnum m e := by
  by_cases he : e = 0
  · subst he
    unfold encodeDec
    rw [if_pos rfl]
    exact decodeField_int (intStr m) (intStr_ne_empty m) m (parseInt_intStr m)
  · unfold encodeDec
    rw [if_neg he]
    simp only []
    generalize hds : List.replicate (e + 1 - (natStr m.natAbs).data.length) '0' ++
      (natStr m.natAbs).data = ds
    have hnd_ne : (natStr m.natAbs).data ≠ [] := natStr_ne_nil m.natAbs
    have hnd_len : 1 ≤ (natStr m.natAbs).data.length := List.length_pos.mpr hnd_ne
    have hds_len : e + 1 ≤ ds.length := by
      rw [← hds, List.length_append, List.length_replicate]
      omega
    have hepos : 1 ≤ e := by omega
    have hint_len : (ds.take (ds.length - e)).length = ds.length - e := by
      rw [List.length_take]
      omega
    have hfrac_len : (ds.drop (ds.length - e)).length = e := by
      rw [List.length_drop]
      omega
    have hds_all : ds.all isDigitChar = true := by
      rw [← hds, List.all_append]
      have h1 : (List.replicate (e + 1 - (natStr m.natAbs).data.length) '0').all
          isDigitChar = true := by
        rw [List.all_eq_true]
        intro x hx
        rw [List.eq_of_mem_replicate hx]
        decide
      rw [h1, natStr_all_digits]
      rfl
    have hint_all : (ds.take (ds.length - e)).all isDigitChar = true := by
      rw [List.all_eq_true]
      exact fun x hx => List.all_eq_true.mp hds_all x (List.take_subset _ _ hx)
    have hfrac_all : (ds.drop (ds.length - e)).all isDigitChar = true := by
      rw [List.all_eq_true]
      exact fun x hx => List.all_eq_true.mp hds_all x (List.drop_subset _ _ hx)
    have hint_ne : ds.take (ds.length - e) ≠ [] := by
      rw [← List.length_pos, hint_len]
      omega
    have hfrac_ne : ds.drop (ds.length - e) ≠ [] := by
      rw [← List.length_pos, hfrac_len]
      omega
    have hval_ds : digitsVal ((ds.map charVal).reverse) = m.natAbs := by
      rw [← hds, valBE_append, natStr_valBE, valBE_replicate_zero]
      simp
    have hval_split : digitsVal (((ds.take (ds.length - e)).map charVal).reverse) *
        10 ^ e + digitsVal (((ds.drop (ds.length - e)).map charVal).reverse) =
        m.natAbs := by
      have happ := valBE_append (ds.take (ds.length - e)) (ds.drop (ds.length - e))
      rw [List.take_append_drop, hfrac_len, hval_ds] at happ
      rw [happ]
      ring
    have hudec := parseUnsignedDec_concat (ds.take (ds.length - e))
      (ds.drop (ds.length - e)) hint_ne hint_all hfrac_ne hfrac_all
    rw [hfrac_len, hval_split] at hudec
    by_cases hm : m < 0
    · rw [if_pos hm]
      have hdata : (("-" : String) ++ String.mk (ds.take (ds.length - e)) ++ "." ++
          String.mk (ds.drop (ds.length - e))).data =
          '-' :: (ds.take (ds.length - e) ++ '.' :: ds.drop (ds.length - e)) := by
        rw [String.data_append, String.data_append, String.data_append]
        simp
      refine decodeField_dec _ ?_ ?_ m e ?_
      · intro hcon
        have : (("-" : String) ++ String.mk (ds.take (ds.length - e)) ++ "." ++
            String.mk (ds.drop (ds.length - e))).data = [] := by rw [hcon]
        rw [hdata] at this
        cases this
      · rw [hdata]
        exact parseIntChars_dot _ (by simp)
      · rw [hdata]
        show (parseUnsignedDec (ds.take (ds.length - e) ++ '.' ::
            ds.drop (ds.length - e))).map (fun p => (-(p.1 : Int), p.2)) = some (m, e)
        rw [hudec]
        show some (-(m.natAbs : Int), e) = some (m, e)
        have hmv : -(m.natAbs : Int) = m := by
          rw [Int.ofNat_natAbs_of_nonpos (le_of_lt hm), neg_neg]
        rw [hmv]
    · rw [if_neg hm]
      have hdata : (("" : String) ++ String.mk (ds.take (ds.length - e)) ++ "." ++
          String.mk (ds.drop (ds.length - e))).data =
          ds.take (ds.length - e) ++ '.' :: ds.drop (ds.length - e) := by
        rw [String.data_append, String.data_append, String.data_append]
        simp
      refine decodeField_dec _ ?_ ?_ m e ?_
      · intro hcon
        have hnil : (("" : String) ++ String.mk (ds.take (ds.length - e)) ++ "." ++
            String.mk (ds.drop (ds.length - e))).data = [] := by rw [hcon]
        rw [hdata] at hnil
        exact hint_ne (List.append_eq_nil.mp hnil).1
      · rw [hdata]
        exact parseIntChars_dot _ (by simp)
      · rw [hdata]
        unfold parseDecChars
        split
        · rename_i rest heq
          have hhead : '-' ∈ ds.take (ds.length - e) ++ '.' :: ds.drop (ds.length - e) := by
            rw [heq]
            exact List.mem_cons_self _ _
          rcases List.mem_append.mp hhead with hmem | hmem
          · have := List.all_eq_true.mp hint_all '-' hmem
            exact absurd this (by decide)
          · rcases List.mem_cons.mp hmem with h1 | h1
            · cases h1
            · have := List.all_eq_true.mp hfrac_all '-' h1
              exact absurd this (by decide)
        · show (parseUnsignedDec (ds.take (ds.length - e) ++ '.' ::
              ds.drop (ds.length - e))).map (fun p => ((p.1 : Int), p.2)) = some (m, e)
          rw [hudec]
          show some ((m.natAbs : Int), e) = some (m, e)
          rw [Int.natAbs_of_nonneg (by omega)]

theorem decode_encode_plain (c : Cell) (h : plainCell c) :
    decodeField false (encodeCell c) = c := by
  cases c with
  | cnum m e => exact decode_encodeDec m e
  | cnan => rfl
  | cstr s =>
    obtain ⟨hne, hint, hdec⟩ := h
    exact decodeField_str s hne hint hdec
  | cts t => cases h

theorem decode_row (cols : List String) :
    ∀ row : List Cell, row.length = cols.length →
      (∀ p ∈ cols.zip row, (p.1 = "timestamp" → ∃ t0, p.2 = Cell.cts t0) ∧
        (p.1 ≠ "timestamp" → plainCell p.2)) →
      (cols.zip (row.map encodeCell)).map
        (fun p => decodeField (p.1 = "timestamp") p.2) = row := by
  induction cols with
  | nil =>
    intro row hlen hwf
    have hr : row = [] := List.length_eq_zero.mp (by simpa using hlen)
    subst hr
    rfl
  | cons c cols ih =>
    intro row hlen hwf
    cases row with
    | nil => simp at hlen
    | cons cell row =>
      have hhead := hwf (c, cell)
        (by rw [List.zip_cons_cons]; exact List.mem_cons_self _ _)
      simp only [List.map_cons, List.zip_cons_cons]
      congr 1
      · by_cases hc : c = "timestamp"
        · obtain ⟨t0, rfl⟩ := hhead.1 hc
          subst hc
          show decodeField (decide ("timestamp" = "timestamp")) (encodeCell (.cts t0)) =
            Cell.cts t0
          have hb : (decide ("timestamp" = "timestamp")) = true := by decide
          rw [hb]
          exact decode_encode_ts t0
        · have hplain := hhead.2 hc
          show decodeField (decide (c = "timestamp")) (encodeCell cell) = cell
          have hb : (decide (c = "timestamp")) = false := by
            simp [hc]
          rw [hb]
          exact decode_encode_plain cell hplain
      · exact ih row (by simpa using hlen)
          (fun p hp => hwf p (by rw [List.zip_cons_cons]; exact List.mem_cons_of_mem _ hp))

theorem list_map_self {A : Type} (f : A → A) :
    ∀ l : List A, (∀ x ∈ l, f x = x) → l.map f = l := by
  intro l
  induction l with
  | nil => intro _; rfl
  | cons x xs ih =>
    intro h
    simp only [List.map_cons]
    rw [h x (List.mem_cons_self _ _), ih (fun y hy => h y (List.mem_cons_of_mem _ hy))]

/-- **C10.** For every consolidated table with a `timestamp` column (and
cells of the forms the pipeline produces: numbers, NaN, strings that do not
mimic the numeral/empty CSV field forms, and timestamps in the `timestamp`
column), writing it to a cache location and reading that location back
yields the table unchanged, with the `timestamp` column parsed back into a
temporal cell on load. -/
theorem cache_roundtrip (t : CTable) (hts : "timestamp" ∈ t.cols)
    (hwf : wellFormedTable t) :
    read_cached_dataset (write_dataset_to_cache t) = t ∧
    (∀ row ∈ (read_cached_dataset (write_dataset_to_cache t)).rows,
      ∀ p ∈ t.cols.zip row, p.1 = "timestamp" → ∃ t0, p.2 = Cell.cts t0) := by
  obtain ⟨hlen, hcells⟩ := hwf
  have hmain : read_cached_dataset (write_dataset_to_cache t) = t := by
    unfold read_cached_dataset write_dataset_to_cache
    cases t with
    | mk cols rows =>
      simp only []
      rw [CTable.mk.injEq]
      refine ⟨rfl, ?_⟩
      rw [List.map_map]
      apply list_map_self
      intro row hrow
      show (cols.zip (row.map encodeCell)).map
        (fun p => decodeField (p.1 = "timestamp") p.2) = row
      exact decode_row cols row (hlen row hrow) (fun p hp => hcells row hrow p hp)
  refine ⟨hmain, ?_⟩
  intro row hrow p hp hts2
  rw [hmain] at hrow
  exact (hcells row hrow p hp).1 hts2

/-- Witness for C10: a one-row table with a string cell, a timestamp, the
decimal number 10.5 and a NaN survives the write/read round trip. -/
theorem cache_roundtrip_witness :
    read_cached_dataset (write_dataset_to_cache
      ⟨["facility_id", "timestamp", "power", "name"],
       [[Cell.cstr "F1", Cell.cts 100, Cell.cnum 105 1, Cell.cnan]]⟩) =
      ⟨["facility_id", "timestamp", "power", "name"],
       [[Cell.cstr "F1", Cell.cts 100, Cell.cnum 105 1, Cell.cnan]]⟩ :=
  (cache_roundtrip
    ⟨["facility_id", "timestamp", "power", "name"],
     [[Cell.cstr "F1", Cell.cts 100, Cell.cnum 105 1, Cell.cnan]]⟩
    (by decide)
    ⟨by intro row hrow
        rcases List.mem_singleton.mp hrow with rfl
        decide,
     by intro row hrow p hp
        rcases List.mem_singleton.mp hrow with rfl
        fin_cases hp
        · exact ⟨fun h => absurd h (by decide), fun _ => ⟨by decide, by decide, by decide⟩⟩
        · exact ⟨fun _ => ⟨100, rfl⟩, fun h => absurd rfl h⟩
        · exact ⟨fun h => absurd h (by decide), fun _ => trivial⟩
        · exact ⟨fun h => absurd h (by decide), fun _ => trivial⟩⟩).1
